import Mathlib

/-!
Verification of the Pepper Grinder asset-container tooling
(`scripts/encode_images_fixed.py`, `scripts/decode_images.py`,
`scripts/optimize_smart.py`, `scripts/diagnose_images.py`,
`scripts/repack_assets.py`, `scripts/extract.py`).

Byte buffers are lists of naturals (each entry a byte value).  External
library calls (zlib compression and decompression, PIL resizing, IEEE-754
float packing) are passed in as function parameters; facts that are true of
the real libraries are taken as explicit hypotheses, and concrete recorded
outputs of the real libraries are provided as data for closed evaluations.
-/

namespace PepperGrinder

/-- Byte at position `p` of a buffer (0 when out of range, as every use in
the scripts is in range). -/
def byteAt (l : List Nat) (p : Nat) : Nat := l.getD p 0

/-- Little-endian 16-bit read, as `struct.unpack` with a u16 format at
position `p`. -/
def u16At (l : List Nat) (p : Nat) : Nat := byteAt l p + 256 * byteAt l (p + 1)

/-- Little-endian 32-bit read, as `struct.unpack` with a u32 format at
position `p`. -/
def u32At (l : List Nat) (p : Nat) : Nat :=
  byteAt l p + 256 * byteAt l (p + 1) + 65536 * byteAt l (p + 2) + 16777216 * byteAt l (p + 3)

/-- Little-endian byte pair of a 16-bit value, as `struct.pack` with a u16
format writes it. -/
def packU16 (v : Nat) : List Nat := [v % 256, v / 256 % 256]

/-- Overwrite the bytes of `l` starting at position `p` with `bs`, as
`struct.pack_into` or a slice assignment does on a `bytearray` (every use in
the scripts stays inside the buffer). -/
def writeBytes (l : List Nat) (p : Nat) (bs : List Nat) : List Nat :=
  l.take p ++ bs ++ l.drop (p + bs.length)

/-- Write a 16-bit little-endian value at position `p`. -/
def setU16 (l : List Nat) (p : Nat) (v : Nat) : List Nat := writeBytes l p (packU16 v)

/-- Python slice `l[a:b]` for `a ≤ b`. -/
def slice (l : List Nat) (a b : Nat) : List Nat := (l.drop a).take (b - a)

/-! ### A computable fragment of zlib inflate

The scripts call `zlib.decompress`, an external library.  For concrete
evaluations we model the fragment of inflate that handles zlib streams whose
deflate body consists solely of stored (uncompressed) blocks; on such streams
the definitions below agree byte-for-byte with `zlib.decompress`, including
the adler32 trailer check and zlib's tolerance of trailing bytes after the
end of the stream.  Streams using Huffman-coded blocks are rejected by this
fragment (`none`), so theorems about arbitrary streams keep the decompressor
as an abstract parameter instead. -/

/-- Adler-32 checksum of a byte list (as used by the zlib stream trailer). -/
def adler32 (data : List Nat) : Nat :=
  let p := data.foldl
    (fun st b => ((st.1 + b) % 65521, (st.2 + (st.1 + b) % 65521) % 65521)) (1, 0)
  p.2 * 65536 + p.1

/-- Parse a sequence of stored (BTYPE 00) deflate blocks.  Returns the
decompressed output together with the bytes remaining after the final block.
The first argument is fuel (each step consumes at least five input bytes so
the input length is always enough fuel). -/
def parseStoredBlocks : Nat → List Nat → List Nat → Option (List Nat × List Nat)
  | 0, _, _ => none
  | fuel + 1, acc, bh :: l0 :: l1 :: n0 :: n1 :: rest =>
    if (bh = 0 ∨ bh = 1) ∧ n0 = 255 - l0 ∧ n1 = 255 - l1 ∧ l0 + 256 * l1 ≤ rest.length then
      let L := l0 + 256 * l1
      if bh = 1 then some (acc ++ rest.take L, rest.drop L)
      else parseStoredBlocks fuel (acc ++ rest.take L) (rest.drop L)
    else none
  | _ + 1, _, _ => none

/-- Inflate a zlib stream consisting of stored blocks: checks the 2-byte
zlib header (deflate method, header checksum, no preset dictionary), parses
the stored blocks, and verifies the big-endian adler32 trailer.  Trailing
bytes after the trailer are ignored, as `zlib.decompress` ignores them. -/
def inflateStored (s : List Nat) : Option (List Nat) :=
  match s with
  | cmf :: flg :: rest =>
    if cmf % 16 = 8 ∧ (cmf * 256 + flg) % 31 = 0 ∧ flg / 32 % 2 = 0 then
      match parseStoredBlocks rest.length [] rest with
      | some (out, rem) =>
        if 4 ≤ rem.length ∧
            byteAt rem 0 = adler32 out / 16777216 % 256 ∧
            byteAt rem 1 = adler32 out / 65536 % 256 ∧
            byteAt rem 2 = adler32 out / 256 % 256 ∧
            byteAt rem 3 = adler32 out % 256 then
          some out
        else none
      | none => none
    else none
  | _ => none

/-! ### Decoders (`decode_images.py` and `optimize_smart.py`) -/

/-- Errors a decode call can raise. -/
inductive DecodeError where
  | structError
  | markerNotFound
  | decompressionError
  | frombytesError
  deriving DecidableEq, Repr

/-- Pixel layout chosen by the decoder. -/
inductive PixMode where
  | RGBA
  | RGB
  deriving DecidableEq, Repr

/-- Result of a successful decode: the mode handed to `Image.frombytes`,
the header dimensions, and the pixel buffer. -/
structure DecodedImage where
  mode : PixMode
  width : Nat
  height : Nat
  pixels : List Nat
  deriving DecidableEq, Repr

/-- Scan for the first position `i` (starting at `start`, for `fuel`
positions) with bytes `0x78 0x9c`, as the loops
`for i in range(...): if data[i:i+2] == b'\x78\x9c'` do. -/
def findMarkerFrom (data : List Nat) : Nat → Nat → Option Nat
  | _, 0 => none
  | start, fuel + 1 =>
    if byteAt data start = 120 ∧ byteAt data (start + 1) = 156 then some start
    else findMarkerFrom data (start + 1) fuel

/-- Decoder of `decode_images.py` (`decode_chowdren_image`): reads the
dimensions from the first header copy, scans the whole buffer for the
`0x78 0x9c` marker, inflates the remainder with the external decompressor
(`decompress`, returning `none` on corrupt streams), then builds an image:
exact RGBA size match, exact RGB size match, or (any other inflated size)
pads with `0xff` bytes or truncates to the RGBA size.  A short buffer makes
`struct.unpack` raise, modelled as `structError`. -/
def decode_chowdren_image (decompress : List Nat → Option (List Nat)) (data : List Nat) :
    Except DecodeError DecodedImage :=
  if data.length < 4 then .error .structError
  else
    let width := u16At data 0
    let height := u16At data 2
    match findMarkerFrom data 0 (data.length - 1) with
    | none => .error .markerNotFound
    | some k =>
      match decompress (data.drop k) with
      | none => .error .decompressionError
      | some pd =>
        let expectedRgba := width * height * 4
        let expectedRgb := width * height * 3
        if pd.length = expectedRgba then .ok ⟨.RGBA, width, height, pd⟩
        else if pd.length = expectedRgb then .ok ⟨.RGB, width, height, pd⟩
        else if pd.length < expectedRgba then
          .ok ⟨.RGBA, width, height, pd ++ List.replicate (expectedRgba - pd.length) 255⟩
        else .ok ⟨.RGBA, width, height, pd.take expectedRgba⟩

/-- Decoder of `optimize_smart.py` (`decode_chowdren_image_inline`): scans
only the first `min 100 (len - 1)` positions for the marker, inflates, and
requires the exact RGBA size (`Image.frombytes` raises otherwise). -/
def decode_chowdren_image_inline (decompress : List Nat → Option (List Nat))
    (data : List Nat) : Except DecodeError DecodedImage :=
  if data.length < 4 then .error .structError
  else
    let width := u16At data 0
    let height := u16At data 2
    match findMarkerFrom data 0 (min 100 (data.length - 1)) with
    | none => .error .markerNotFound
    | some k =>
      match decompress (data.drop k) with
      | none => .error .decompressionError
      | some pd =>
        if pd.length = width * height * 4 then .ok ⟨.RGBA, width, height, pd⟩
        else .error .frombytesError

/-! ### Encoders (`encode_images_fixed.py` and `optimize_smart.py`) -/

/-- Errors an encode call can raise: the size-limit `ValueError`, and the
`struct.error` raised by `encode_chowdren_image_inline` when the header
template is shorter than the positions written into it. -/
inductive EncodeError where
  | sizeLimitExceeded
  | headerTooShort
  deriving DecidableEq, Repr

/-- A PIL image already converted to RGBA mode: its size and the byte
buffer returned by `tobytes()` (for a real RGBA image the buffer has
`width * height * 4` bytes; theorems take that as a hypothesis). -/
structure PILImage where
  width : Nat
  height : Nat
  bytes : List Nat
  deriving DecidableEq, Repr

/-- Effective dimensions of the encode: the forced dimensions when given,
the image size otherwise. -/
def forcedDims (img : PILImage) : Option (Nat × Nat) → Nat × Nat
  | none => (img.width, img.height)
  | some wh => wh

/-- Effective pixel buffer of the encode: `img.resize(force).tobytes()`
when dimensions are forced (`resizeBytes` models the external PIL resize
followed by `tobytes`), `img.tobytes()` otherwise. -/
def forcedPixels (resizeBytes : Nat → Nat → List Nat) (img : PILImage) :
    Option (Nat × Nat) → List Nat
  | none => img.bytes
  | some wh => resizeBytes wh.1 wh.2

/-- Default 50-byte header built by `encode_chowdren_image` when no source
header is given: dimensions in all three copies, hotspot at the image
center (IEEE-754 single packing modelled by `packf`), flags 2,
decompressed size. -/
def defaultHeader (packf : ℚ → List Nat) (width height pixelSize : Nat) : List Nat :=
  let h0 := List.replicate 50 0
  let h1 := setU16 (setU16 (setU16 h0 0 width) 4 width) 12 width
  let h2 := setU16 (setU16 (setU16 h1 2 height) 6 height) 14 height
  let h3 := writeBytes h2 16 (packf ((width : ℚ) / 2))
  let h4 := writeBytes h3 20 (packf ((height : ℚ) / 2))
  let h5 := setU16 h4 24 2
  setU16 h5 46 pixelSize

/-- Dimension writes of the source-header branch of
`encode_chowdren_image`: copy the first 50 template bytes, then write the
width at 0, 4, 12 and the height at 2, 6, 14. -/
def fsDims (ohdr : List Nat) (width height : Nat) : List Nat :=
  setU16 (setU16 (setU16 (setU16 (setU16 (setU16 (ohdr.take 50)
    0 width) 4 width) 12 width) 2 height) 6 height) 14 height

/-- Hotspot step of `encode_chowdren_image`: only when dimensions are
forced and the template's stored dimensions are both positive, write the
proportionally rescaled hotspot floats at 16 and 20 (float arithmetic
modelled exactly over ℚ, packing by `packf`). -/
def fsHot (packf : ℚ → List Nat) (unpackf : List Nat → ℚ) (ohdr : List Nat)
    (width height : Nat) (forced : Bool) : List Nat :=
  let ow := u16At ohdr 0
  let oh := u16At ohdr 2
  if forced = true ∧ 0 < ow ∧ 0 < oh then
    writeBytes
      (writeBytes (fsDims ohdr width height) 16
        (packf ((width : ℚ) * (unpackf (slice ohdr 16 20) / (ow : ℚ)))))
      20 (packf ((height : ℚ) * (unpackf (slice ohdr 20 24) / (oh : ℚ))))
  else fsDims ohdr width height

/-- Decompressed-size write of `encode_chowdren_image` (bytes 46-47). -/
def fsSize (packf : ℚ → List Nat) (unpackf : List Nat → ℚ) (ohdr : List Nat)
    (width height : Nat) (forced : Bool) (pixelSize : Nat) : List Nat :=
  setU16 (fsHot packf unpackf ohdr width height forced) 46 pixelSize

/-- Full source-header branch of `encode_chowdren_image`: dimension and
size writes, optional hotspot rescale, and, when the stored dimensions
differ from the new ones, zeroing of bytes 20-45. -/
def buildHeaderFS (packf : ℚ → List Nat) (unpackf : List Nat → ℚ) (ohdr : List Nat)
    (width height : Nat) (forced : Bool) (pixelSize : Nat) : List Nat :=
  let h := fsSize packf unpackf ohdr width height forced pixelSize
  if u16At ohdr 0 ≠ width ∨ u16At ohdr 2 ≠ height then
    writeBytes h 20 (List.replicate 26 0)
  else h

/-- Encoder of `encode_images_fixed.py` (`encode_chowdren_image`).  The
external zlib compressor at level 9 is the parameter `compress9`; `packf`
and `unpackf` model IEEE-754 single packing and unpacking; `resizeBytes`
models the PIL resize performed when dimensions are forced.  Raises the
size-limit `ValueError` when the pixel buffer exceeds 65535 bytes, and
otherwise returns the 50-byte header followed by the compressed payload. -/
def encode_chowdren_image (packf : ℚ → List Nat) (unpackf : List Nat → ℚ)
    (compress9 : List Nat → List Nat) (resizeBytes : Nat → Nat → List Nat)
    (img : PILImage) (originalHeader : Option (List Nat))
    (forceDimensions : Option (Nat × Nat)) : Except EncodeError (List Nat) :=
  let wh := forcedDims img forceDimensions
  let pixelData := forcedPixels resizeBytes img forceDimensions
  let pixelSize := pixelData.length
  if 65535 < pixelSize then .error .sizeLimitExceeded
  else
    let compressed := compress9 pixelData
    let header :=
      match originalHeader with
      | some ohdr =>
        if 50 ≤ ohdr.length then
          buildHeaderFS packf unpackf ohdr wh.1 wh.2 forceDimensions.isSome pixelSize
        else defaultHeader packf wh.1 wh.2 pixelSize
      | none => defaultHeader packf wh.1 wh.2 pixelSize
    .ok (header ++ compressed)

/-- Dimension and size writes of `encode_chowdren_image_inline`, in the
order the source performs them (0, 2, 4, 6, 12, 14, 46). -/
def ilDims (ohdr : List Nat) (width height pixelSize : Nat) : List Nat :=
  setU16 (setU16 (setU16 (setU16 (setU16 (setU16 (setU16 (ohdr.take 50)
    0 width) 2 height) 4 width) 6 height) 12 width) 14 height) 46 pixelSize

/-- Header of `encode_chowdren_image_inline`: after the dimension and size
writes, zero bytes 20-45 when the stored dimensions differ, else (when the
stored dimensions are positive) write the rescaled hotspot floats. -/
def buildHeaderInline (packf : ℚ → List Nat) (unpackf : List Nat → ℚ)
    (ohdr : List Nat) (width height pixelSize : Nat) : List Nat :=
  let h := ilDims ohdr width height pixelSize
  let ow := u16At ohdr 0
  let oh := u16At ohdr 2
  if ow ≠ width ∨ oh ≠ height then writeBytes h 20 (List.replicate 26 0)
  else if 0 < ow ∧ 0 < oh then
    writeBytes
      (writeBytes h 16 (packf ((unpackf (slice ohdr 16 20) / (ow : ℚ)) * (width : ℚ))))
      20 (packf ((unpackf (slice ohdr 20 24) / (oh : ℚ)) * (height : ℚ)))
  else h

/-- Encoder of `optimize_smart.py` (`encode_chowdren_image_inline`): size
check, compression at levels 6 and 9 keeping the strictly smaller output
(level 6 on ties), then the header writes on the first 50 template bytes.
A template shorter than the written positions makes `struct.pack_into`
raise, modelled as `headerTooShort`. -/
def encode_chowdren_image_inline (packf : ℚ → List Nat) (unpackf : List Nat → ℚ)
    (compress : Nat → List Nat → List Nat) (img : PILImage)
    (originalHeaderBytes : List Nat) : Except EncodeError (List Nat) :=
  let pixelData := img.bytes
  let pixelSize := pixelData.length
  if 65535 < pixelSize then .error .sizeLimitExceeded
  else
    let c6 := compress 6 pixelData
    let c9 := compress 9 pixelData
    let best := if c9.length < c6.length then c9 else c6
    if originalHeaderBytes.length < 50 then .error .headerTooShort
    else
      .ok (buildHeaderInline packf unpackf originalHeaderBytes
        img.width img.height pixelSize ++ best)

/-! ### Validator (`diagnose_images.py`) -/

/-- Validator of `diagnose_images.py` (`diagnose_bin_file`), on the file's
bytes: rejects files shorter than 50 bytes, zero dimensions, and dimensions
strictly greater than 4096.  The source also scans the first 100 bytes for
the `0x78 0x9c` marker and compares the declared decompressed size with
`width*height*4`, but both checks only print warnings and do not affect the
returned validity. -/
def diagnose_bin_file (data : List Nat) : Bool :=
  if data.length < 50 then false
  else
    let width := u16At data 0
    let height := u16At data 2
    if width = 0 ∨ height = 0 then false
    else if 4096 < width ∨ 4096 < height then false
    else true

/-! ### Asset tables and the repacker (`repack_assets.py`, `extract.py`) -/

/-- Table reader shared by `repack_assets.py` and `extract.py`
(`read_asset_table`): reads up to `count` 8-byte little-endian
`(u32 offset, u32 size)` records starting at `off`, stopping early (with a
plain short result, no error) as soon as fewer than 8 bytes remain. -/
def read_asset_table (file : List Nat) : Nat → Nat → List (Nat × Nat)
  | _, 0 => []
  | off, count + 1 =>
    if off + 8 ≤ file.length then
      (u32At file off, u32At file (off + 4)) :: read_asset_table file (off + 8) count
    else []

/-- Format constants of `repack_assets.py`, passed as an explicit
configuration value (counts and table offsets). -/
structure RepackConfig where
  imageCount : Nat
  soundCount : Nat
  fontCount : Nat
  shaderCount : Nat
  imagesOff : Nat
  soundsOff : Nat
  fontsOff : Nat
  shadersOff : Nat
  deriving DecidableEq, Repr

/-- The constants of `repack_assets.py` for Pepper Grinder. -/
def pepperConfig : RepackConfig :=
  ⟨10260, 267, 19, 3, 0, 82048, 84184, 84336⟩

/-- Metadata size computed by `repack_assets`: eight bytes per record over
the four tables. -/
def metadataSize (cfg : RepackConfig) : Nat :=
  cfg.imageCount * 8 + cfg.soundCount * 8 + cfg.fontCount * 8 + cfg.shaderCount * 8

/-- Per-record processing of the image and sound loops of `repack_assets`
(the font loop is the same with no substitutions): a substituted record gets
the cursor as offset and the substitute's length as size; a copied record
gets the cursor as offset with its size unchanged; the cursor advances by
the written size.  The payload bytes written to the output do not influence
offsets or sizes and are not tracked here.  `i` is the table index used to
look up substitutes. -/
def processTable (subst : Nat → Option (List Nat)) :
    Nat → Nat → List (Nat × Nat) → List (Nat × Nat) × Nat
  | _, cursor, [] => ([], cursor)
  | i, cursor, r :: rest =>
    match subst i with
    | some d =>
      let p := processTable subst (i + 1) (cursor + d.length) rest
      ((cursor, d.length) :: p.1, p.2)
    | none =>
      let p := processTable subst (i + 1) (cursor + r.2) rest
      ((cursor, r.2) :: p.1, p.2)

/-- Shader loop of `repack_assets`: a record is copied (offset moved to the
cursor) only when both its original size and original offset are positive;
otherwise the record is left untouched and the cursor does not move. -/
def processShaders : Nat → List (Nat × Nat) → List (Nat × Nat) × Nat
  | cursor, [] => ([], cursor)
  | cursor, r :: rest =>
    if 0 < r.2 ∧ 0 < r.1 then
      let p := processShaders (cursor + r.2) rest
      ((cursor, r.2) :: p.1, p.2)
    else
      let p := processShaders cursor rest
      (r :: p.1, p.2)

/-- Error of a repack run: the source crashes with an index error when a
table read returns fewer records than the configured count. -/
inductive RepackError where
  | truncatedTables
  deriving DecidableEq, Repr

/-- Updated tables and final size produced by `repack_assets`. -/
structure RepackResult where
  imageTable : List (Nat × Nat)
  soundTable : List (Nat × Nat)
  fontTable : List (Nat × Nat)
  shaderTable : List (Nat × Nat)
  finalSize : Nat
  deriving DecidableEq, Repr

/-- Repacker of `repack_assets.py` (`repack_assets`): read the four tables,
reserve `metadataSize` bytes, then process images, sounds, fonts and shaders
in that order with a running write cursor starting at `metadataSize`.  The
final archive size is the final cursor value. -/
def repack_assets (cfg : RepackConfig) (arch : List Nat)
    (modifiedImages modifiedSounds : Nat → Option (List Nat)) :
    Except RepackError RepackResult :=
  let imageTable := read_asset_table arch cfg.imagesOff cfg.imageCount
  let soundTable := read_asset_table arch cfg.soundsOff cfg.soundCount
  let fontTable := read_asset_table arch cfg.fontsOff cfg.fontCount
  let shaderTable := read_asset_table arch cfg.shadersOff cfg.shaderCount
  if imageTable.length = cfg.imageCount ∧ soundTable.length = cfg.soundCount ∧
      fontTable.length = cfg.fontCount ∧ shaderTable.length = cfg.shaderCount then
    let pi := processTable modifiedImages 0 (metadataSize cfg) imageTable
    let ps := processTable modifiedSounds 0 pi.2 soundTable
    let pf := processTable (fun _ => none) 0 ps.2 fontTable
    let psh := processShaders pf.2 shaderTable
    .ok ⟨pi.1, ps.1, pf.1, psh.1, psh.2⟩
  else .error .truncatedTables

/-- Contiguity check for a processed table: each record starts exactly at
the running cursor and the cursor after the table is the start plus the sum
of the sizes (so the records tile an interval with no gap or overlap). -/
def tiles : Nat → List (Nat × Nat) → Nat → Bool
  | c, [], cEnd => cEnd = c
  | c, r :: rest, cEnd => r.1 = c && tiles (c + r.2) rest cEnd

/-- Contiguity check for the processed shader table against the original
one: records with positive original size and offset tile the interval as in
`tiles`; the remaining records are untouched copies of the originals and do
not advance the cursor. -/
def shaderTiles : Nat → List (Nat × Nat) → List (Nat × Nat) → Nat → Bool
  | c, [], [], cEnd => cEnd = c
  | c, o :: orest, r :: rest, cEnd =>
    if 0 < o.2 ∧ 0 < o.1 then
      r.1 = c && r.2 = o.2 && shaderTiles (c + o.2) orest rest cEnd
    else
      r = o && shaderTiles c orest rest cEnd
  | _, _, _, _ => false

/-! ### Recorded external-library data and concrete inputs

The scripts call external libraries whose outputs on the concrete inputs
used below were recorded from the real implementations: CPython `zlib`
(`zlib.compress` of the 4-byte zero buffer at levels 6 and 9) and IEEE-754
single-precision packing (`struct.pack` of 0.0 and 0.5).  These recorded
values let closed theorems evaluate the encoders exactly as the real
program behaves on these inputs. -/

/-- Recorded output of `zlib.compress(bytes(4), 9)`: a level-9 zlib stream,
whose first two bytes are `0x78 0xda`. -/
def zlib9z4 : List Nat := [120, 218, 99, 96, 96, 96, 0, 0, 0, 4, 0, 1]

/-- Recorded output of `zlib.compress(bytes(4), 6)`: a level-6 zlib stream,
whose first two bytes are `0x78 0x9c`. -/
def zlib6z4 : List Nat := [120, 156, 99, 96, 96, 96, 0, 0, 0, 4, 0, 1]

/-- Model of `zlib.compress(data, 9)` recorded at the 4-byte zero buffer
(the only input closed theorems evaluate it on). -/
def compress9ex : List Nat → List Nat :=
  fun d => if d = [0, 0, 0, 0] then zlib9z4 else [120, 218]

/-- Model of `zlib.compress(data, level)` recorded at the 4-byte zero
buffer for levels 6 and 9. -/
def compressEx : Nat → List Nat → List Nat :=
  fun level d =>
    if level = 9 then compress9ex d
    else if d = [0, 0, 0, 0] then zlib6z4 else [120, 156]

/-- Model of IEEE-754 single-precision little-endian packing recorded at
the two values closed theorems evaluate it on: `struct.pack` gives
`[0,0,0,0]` for 0.0 and `[0,0,0,63]` for 0.5 (and every other value used
below packs to a 4-byte string; the recorded bytes of 0.5 are only needed
to follow the default-header hotspot write exactly). -/
def packfEx : ℚ → List Nat := fun q => if q = 0 then [0, 0, 0, 0] else [0, 0, 0, 63]

/-- Model of IEEE-754 single-precision unpacking at the recorded values:
the zero bytes unpack to 0.0 and the recorded bytes of 0.5 to 0.5. -/
def unpackfEx : List Nat → ℚ := fun b => if b = [0, 0, 0, 63] then (1 : ℚ) / 2 else 0

/-- Model of `img.resize((w, h)).tobytes()` used in closed evaluations: a
resized RGBA image always yields `w * h * 4` bytes. -/
def resizeEx : Nat → Nat → List Nat := fun w h => List.replicate (w * h * 4) 0

/-- A 1-by-1 fully transparent RGBA image (`tobytes` gives 4 zero bytes). -/
def img1 : PILImage := ⟨1, 1, [0, 0, 0, 0]⟩

/-- A 50-byte source header whose three stored dimension copies are 1x1 and
whose other bytes are zero. -/
def ohdrEq : List Nat := [1, 0, 1, 0, 1, 0, 1, 0] ++ List.replicate 42 0

/-- A 50-byte source header whose three stored dimension copies are 2x2 and
whose other bytes are zero. -/
def ohdrDiff : List Nat := [2, 0, 2, 0, 2, 0, 2, 0] ++ List.replicate 42 0

/-- Output of `encode_chowdren_image` on `img1` with no source header: the
default header (hotspot 0.5, flags 2, size 4) followed by the recorded
level-9 stream.  No `0x78 0x9c` pair occurs anywhere in it. -/
def blobC1 : List Nat :=
  [1, 0, 1, 0, 1, 0, 1, 0, 0, 0, 0, 0, 1, 0, 1, 0,
   0, 0, 0, 63, 0, 0, 0, 63, 2, 0, 0, 0, 0, 0, 0, 0,
   0, 0, 0, 0, 0, 0, 0, 0, 0, 0, 0, 0, 0, 0, 4, 0, 0, 0] ++ zlib9z4

/-- The 50-byte header produced by either encoder for a 1x1 image over the
headers above (dimension copies 1, decompressed size 4, bytes 16-45 zero). -/
def hdrOut1 : List Nat :=
  [1, 0, 1, 0, 1, 0, 1, 0, 0, 0, 0, 0, 1, 0, 1, 0] ++
    List.replicate 30 0 ++ [4, 0, 0, 0]

/-- Header `hdrOut1` followed by the recorded level-9 stream. -/
def blobOut9 : List Nat := hdrOut1 ++ zlib9z4

/-- Header `hdrOut1` followed by the recorded level-6 stream. -/
def blobOut6 : List Nat := hdrOut1 ++ zlib6z4

/-- A bitmap blob whose header declares 1x1 but whose zlib payload (a
stored-block stream beginning with the `0x78 0x9c` marker at byte 50)
inflates to 2 bytes `0xaa 0xbb`, matching neither the RGBA size 4 nor the
RGB size 3. -/
def blobC6 : List Nat :=
  [1, 0, 1, 0, 1, 0, 1, 0] ++ List.replicate 38 0 ++ [2, 0, 0, 0] ++
    [120, 156, 1, 2, 0, 253, 255, 170, 187, 2, 17, 1, 102]

/-- A 50-byte blob with 1x1 dimensions and no compression marker anywhere. -/
def blobC7 : List Nat := [1, 0, 1, 0] ++ List.replicate 46 0

/-- A 50-byte blob whose dimensions are exactly 4096x4096. -/
def blobC7b : List Nat := [0, 16, 0, 16] ++ List.replicate 46 0

/-- An 84360-byte archive for the Pepper Grinder configuration: all table
bytes are zero except the size field of shader record 0, which is 5 (so the
shader table reads as `[(0,5),(0,0),(0,0)]` and record 0 is skipped by the
shader loop because its offset is 0). -/
def archC4 : List Nat := List.replicate 84340 0 ++ 5 :: List.replicate 19 0

/-- Empty substitution map (no modified assets found). -/
def noSub : Nat → Option (List Nat) := fun _ => none

/-- Rescaled hotspot x bytes written by the fixed encoder when dimensions
are forced (width times the ratio of the stored hotspot x to the stored
width). -/
def fsNx (packf : ℚ → List Nat) (unpackf : List Nat → ℚ) (ohdr : List Nat) (w : Nat) :
    List Nat :=
  packf ((w : ℚ) * (unpackf (slice ohdr 16 20) / (u16At ohdr 0 : ℚ)))

/-- Rescaled hotspot y bytes written by the fixed encoder when dimensions
are forced. -/
def fsNy (packf : ℚ → List Nat) (unpackf : List Nat → ℚ) (ohdr : List Nat) (h : Nat) :
    List Nat :=
  packf ((h : ℚ) * (unpackf (slice ohdr 20 24) / (u16At ohdr 2 : ℚ)))

/-- Rescaled hotspot x bytes written by the inline encoder when dimensions
are unchanged (ratio of the stored hotspot x to the stored width, times the
width). -/
def ilNx (packf : ℚ → List Nat) (unpackf : List Nat → ℚ) (ohdr : List Nat) (w : Nat) :
    List Nat :=
  packf ((unpackf (slice ohdr 16 20) / (u16At ohdr 0 : ℚ)) * (w : ℚ))

/-- Rescaled hotspot y bytes written by the inline encoder when dimensions
are unchanged. -/
def ilNy (packf : ℚ → List Nat) (unpackf : List Nat → ℚ) (ohdr : List Nat) (h : Nat) :
    List Nat :=
  packf ((unpackf (slice ohdr 20 24) / (u16At ohdr 2 : ℚ)) * (h : ℚ))

/-! ## Byte-buffer lemmas -/

theorem byteAt_append_left {l l2 : List Nat} {j : Nat} (h : j < l.length) :
    byteAt (l ++ l2) j = byteAt l j := by
  simp [byteAt, List.getD_eq_getElem?_getD, List.getElem?_append, h]

theorem byteAt_append_right {l l2 : List Nat} {j : Nat} (h : l.length ≤ j) :
    byteAt (l ++ l2) j = byteAt l2 (j - l.length) := by
  simp [byteAt, List.getD_eq_getElem?_getD, List.getElem?_append, Nat.not_lt.mpr h]

theorem byteAt_take {l : List Nat} {n j : Nat} (h : j < n) :
    byteAt (l.take n) j = byteAt l j := by
  simp [byteAt, List.getD_eq_getElem?_getD, List.getElem?_take, h]

theorem byteAt_drop {l : List Nat} {n j : Nat} :
    byteAt (l.drop n) j = byteAt l (n + j) := by
  simp [byteAt, List.getD_eq_getElem?_getD, List.getElem?_drop]

theorem byteAt_replicate {n a j : Nat} :
    byteAt (List.replicate n a) j = if j < n then a else 0 := by
  by_cases h : j < n <;>
    simp [byteAt, List.getD_eq_getElem?_getD, List.getElem?_replicate, h]

theorem length_writeBytes {l bs : List Nat} {p : Nat} (h : p + bs.length ≤ l.length) :
    (writeBytes l p bs).length = l.length := by
  simp [writeBytes]
  omega

theorem byteAt_writeBytes_lt {l bs : List Nat} {p j : Nat}
    (hp : p + bs.length ≤ l.length) (hj : j < p) :
    byteAt (writeBytes l p bs) j = byteAt l j := by
  have ht : (l.take p).length = p := by simp; omega
  unfold writeBytes
  rw [List.append_assoc] at *
  rw [byteAt_append_left (by rw [ht]; exact hj), byteAt_take hj]

theorem byteAt_writeBytes_mid {l bs : List Nat} {p j : Nat}
    (hp : p + bs.length ≤ l.length) (h1 : p ≤ j) (h2 : j < p + bs.length) :
    byteAt (writeBytes l p bs) j = byteAt bs (j - p) := by
  have ht : (l.take p).length = p := by simp; omega
  unfold writeBytes
  rw [List.append_assoc, byteAt_append_right (by rw [ht]; exact h1), ht,
    byteAt_append_left (by omega)]

theorem byteAt_writeBytes_ge {l bs : List Nat} {p j : Nat}
    (hp : p + bs.length ≤ l.length) (hj : p + bs.length ≤ j) :
    byteAt (writeBytes l p bs) j = byteAt l j := by
  have ht : (l.take p).length = p := by simp; omega
  unfold writeBytes
  rw [List.append_assoc, byteAt_append_right (by rw [ht]; omega), ht,
    byteAt_append_right (by omega), byteAt_drop]
  congr 1
  omega

theorem length_packU16 (v : Nat) : (packU16 v).length = 2 := rfl

theorem length_setU16 {l : List Nat} {p v : Nat} (h : p + 2 ≤ l.length) :
    (setU16 l p v).length = l.length :=
  length_writeBytes (by rw [length_packU16]; exact h)

theorem byteAt_setU16_lt {l : List Nat} {p v j : Nat}
    (hp : p + 2 ≤ l.length) (hj : j < p) :
    byteAt (setU16 l p v) j = byteAt l j :=
  byteAt_writeBytes_lt (by rw [length_packU16]; exact hp) hj

theorem byteAt_setU16_ge {l : List Nat} {p v j : Nat}
    (hp : p + 2 ≤ l.length) (hj : p + 2 ≤ j) :
    byteAt (setU16 l p v) j = byteAt l j :=
  byteAt_writeBytes_ge (by rw [length_packU16]; exact hp) (by rw [length_packU16]; exact hj)

theorem byteAt_setU16_mid {l : List Nat} {p v j : Nat}
    (hp : p + 2 ≤ l.length) (h1 : p ≤ j) (h2 : j < p + 2) :
    byteAt (setU16 l p v) j = byteAt (packU16 v) (j - p) :=
  byteAt_writeBytes_mid (by rw [length_packU16]; exact hp) h1 (by rw [length_packU16]; exact h2)

theorem byteAt_packU16_0 (v : Nat) : byteAt (packU16 v) 0 = v % 256 := rfl

theorem byteAt_packU16_1 (v : Nat) : byteAt (packU16 v) 1 = v / 256 % 256 := rfl

theorem u16At_setU16_self {l : List Nat} {p v : Nat} (hp : p + 2 ≤ l.length) :
    u16At (setU16 l p v) p = v % 65536 := by
  unfold u16At
  rw [byteAt_setU16_mid hp (by omega) (by omega),
    byteAt_setU16_mid hp (by omega) (by omega)]
  simp [byteAt_packU16_0, byteAt_packU16_1, Nat.sub_self]
  omega

theorem length_setU16_50 {l : List Nat} {p v : Nat} (h : l.length = 50) (hp : p + 2 ≤ 50) :
    (setU16 l p v).length = 50 := by
  rw [length_setU16 (by rw [h]; exact hp)]
  exact h

theorem byteAt_setU16_lt50 {l : List Nat} {p v j : Nat} (h : l.length = 50)
    (hp : p + 2 ≤ 50) (hj : j < p) : byteAt (setU16 l p v) j = byteAt l j :=
  byteAt_setU16_lt (by rw [h]; exact hp) hj

theorem byteAt_setU16_ge50 {l : List Nat} {p v j : Nat} (h : l.length = 50)
    (hp : p + 2 ≤ 50) (hj : p + 2 ≤ j) : byteAt (setU16 l p v) j = byteAt l j :=
  byteAt_setU16_ge (by rw [h]; exact hp) hj

theorem byteAt_setU16_mid50 {l : List Nat} {p v j : Nat} (h : l.length = 50)
    (hp : p + 2 ≤ 50) (h1 : p ≤ j) (h2 : j < p + 2) :
    byteAt (setU16 l p v) j = byteAt (packU16 v) (j - p) :=
  byteAt_setU16_mid (by rw [h]; exact hp) h1 h2

/-! ## Header-builder byte characterizations -/

theorem length_take50 {ohdr : List Nat} (hlen : 50 ≤ ohdr.length) :
    (ohdr.take 50).length = 50 := by
  simp
  omega

theorem length_fsDims (ohdr : List Nat) (w h : Nat) (hlen : 50 ≤ ohdr.length) :
    (fsDims ohdr w h).length = 50 := by
  unfold fsDims
  exact length_setU16_50 (length_setU16_50 (length_setU16_50 (length_setU16_50
    (length_setU16_50 (length_setU16_50 (length_take50 hlen) (by omega)) (by omega))
    (by omega)) (by omega)) (by omega)) (by omega)

/-- Byte map of the dimension writes of the fixed encoder's source-header
branch. -/
theorem byteAt_fsDims (ohdr : List Nat) (w h : Nat) (hlen : 50 ≤ ohdr.length)
    (j : Nat) (hj : j < 50) :
    byteAt (fsDims ohdr w h) j =
      if j < 2 then byteAt (packU16 w) j
      else if j < 4 then byteAt (packU16 h) (j - 2)
      else if j < 6 then byteAt (packU16 w) (j - 4)
      else if j < 8 then byteAt (packU16 h) (j - 6)
      else if j < 12 then byteAt ohdr j
      else if j < 14 then byteAt (packU16 w) (j - 12)
      else if j < 16 then byteAt (packU16 h) (j - 14)
      else byteAt ohdr j := by
  have l0 := length_take50 hlen
  have l1 : (setU16 (ohdr.take 50) 0 w).length = 50 := length_setU16_50 l0 (by omega)
  have l2 : (setU16 (setU16 (ohdr.take 50) 0 w) 4 w).length = 50 :=
    length_setU16_50 l1 (by omega)
  have l3 : (setU16 (setU16 (setU16 (ohdr.take 50) 0 w) 4 w) 12 w).length = 50 :=
    length_setU16_50 l2 (by omega)
  have l4 : (setU16 (setU16 (setU16 (setU16 (ohdr.take 50) 0 w) 4 w) 12 w) 2 h).length
      = 50 := length_setU16_50 l3 (by omega)
  have l5 : (setU16 (setU16 (setU16 (setU16 (setU16 (ohdr.take 50) 0 w) 4 w) 12 w)
      2 h) 6 h).length = 50 := length_setU16_50 l4 (by omega)
  unfold fsDims
  rcases (show j < 2 ∨ (2 ≤ j ∧ j < 4) ∨ (4 ≤ j ∧ j < 6) ∨ (6 ≤ j ∧ j < 8) ∨
      (8 ≤ j ∧ j < 12) ∨ (12 ≤ j ∧ j < 14) ∨ (14 ≤ j ∧ j < 16) ∨ 16 ≤ j from by omega)
    with hr | hr | hr | hr | hr | hr | hr | hr
  · rw [byteAt_setU16_lt50 l5 (by omega) (by omega),
      byteAt_setU16_lt50 l4 (by omega) (by omega),
      byteAt_setU16_lt50 l3 (by omega) (by omega),
      byteAt_setU16_lt50 l2 (by omega) (by omega),
      byteAt_setU16_lt50 l1 (by omega) (by omega),
      byteAt_setU16_mid50 l0 (by omega) (by omega) (by omega)]
    simp [hr]
  · rw [byteAt_setU16_lt50 l5 (by omega) (by omega),
      byteAt_setU16_lt50 l4 (by omega) (by omega),
      byteAt_setU16_mid50 l3 (by omega) (by omega) (by omega)]
    have e2 : ¬ j < 2 := by omega
    simp [e2, hr.2]
  · rw [byteAt_setU16_lt50 l5 (by omega) (by omega),
      byteAt_setU16_lt50 l4 (by omega) (by omega),
      byteAt_setU16_ge50 l3 (by omega) (by omega),
      byteAt_setU16_lt50 l2 (by omega) (by omega),
      byteAt_setU16_mid50 l1 (by omega) (by omega) (by omega)]
    have e2 : ¬ j < 2 := by omega
    have e4 : ¬ j < 4 := by omega
    simp [e2, e4, hr.2]
  · rw [byteAt_setU16_lt50 l5 (by omega) (by omega),
      byteAt_setU16_mid50 l4 (by omega) (by omega) (by omega)]
    have e2 : ¬ j < 2 := by omega
    have e4 : ¬ j < 4 := by omega
    have e6 : ¬ j < 6 := by omega
    simp [e2, e4, e6, hr.2]
  · rw [byteAt_setU16_lt50 l5 (by omega) (by omega),
      byteAt_setU16_ge50 l4 (by omega) (by omega),
      byteAt_setU16_ge50 l3 (by omega) (by omega),
      byteAt_setU16_lt50 l2 (by omega) (by omega),
      byteAt_setU16_ge50 l1 (by omega) (by omega),
      byteAt_setU16_ge50 l0 (by omega) (by omega),
      byteAt_take (by omega)]
    have e2 : ¬ j < 2 := by omega
    have e4 : ¬ j < 4 := by omega
    have e6 : ¬ j < 6 := by omega
    have e8 : ¬ j < 8 := by omega
    simp [e2, e4, e6, e8, hr.2]
  · rw [byteAt_setU16_lt50 l5 (by omega) (by omega),
      byteAt_setU16_ge50 l4 (by omega) (by omega),
      byteAt_setU16_ge50 l3 (by omega) (by omega),
      byteAt_setU16_mid50 l2 (by omega) (by omega) (by omega)]
    have e2 : ¬ j < 2 := by omega
    have e4 : ¬ j < 4 := by omega
    have e6 : ¬ j < 6 := by omega
    have e8 : ¬ j < 8 := by omega
    have e12 : ¬ j < 12 := by omega
    simp [e2, e4, e6, e8, e12, hr.2]
  · rw [byteAt_setU16_mid50 l5 (by omega) (by omega) (by omega)]
    have e2 : ¬ j < 2 := by omega
    have e4 : ¬ j < 4 := by omega
    have e6 : ¬ j < 6 := by omega
    have e8 : ¬ j < 8 := by omega
    have e12 : ¬ j < 12 := by omega
    have e14 : ¬ j < 14 := by omega
    simp [e2, e4, e6, e8, e12, e14, hr.2]
  · rw [byteAt_setU16_ge50 l5 (by omega) (by omega),
      byteAt_setU16_ge50 l4 (by omega) (by omega),
      byteAt_setU16_ge50 l3 (by omega) (by omega),
      byteAt_setU16_ge50 l2 (by omega) (by omega),
      byteAt_setU16_ge50 l1 (by omega) (by omega),
      byteAt_setU16_ge50 l0 (by omega) (by omega),
      byteAt_take (by omega)]
    have e2 : ¬ j < 2 := by omega
    have e4 : ¬ j < 4 := by omega
    have e6 : ¬ j < 6 := by omega
    have e8 : ¬ j < 8 := by omega
    have e12 : ¬ j < 12 := by omega
    have e14 : ¬ j < 14 := by omega
    have e16 : ¬ j < 16 := by omega
    simp [e2, e4, e6, e8, e12, e14, e16]

section BuildFS

variable (packf : ℚ → List Nat) (unpackf : List Nat → ℚ) (ohdr : List Nat)
variable (w h : Nat) (fr : Bool) (ps : Nat)

theorem fsHot_eq_ite :
    fsHot packf unpackf ohdr w h fr =
      if fr = true ∧ 0 < u16At ohdr 0 ∧ 0 < u16At ohdr 2 then
        writeBytes (writeBytes (fsDims ohdr w h) 16 (fsNx packf unpackf ohdr w))
          20 (fsNy packf unpackf ohdr h)
      else fsDims ohdr w h := rfl

end BuildFS

theorem length_fsHot {packf : ℚ → List Nat} {unpackf : List Nat → ℚ} {ohdr : List Nat}
    {w h : Nat} {fr : Bool} (hlen : 50 ≤ ohdr.length)
    (hpack : ∀ q, (packf q).length = 4) :
    (fsHot packf unpackf ohdr w h fr).length = 50 := by
  rw [fsHot_eq_ite]
  split
  · rw [length_writeBytes, length_writeBytes]
    · exact length_fsDims ohdr w h hlen
    · rw [fsNx, hpack, length_fsDims ohdr w h hlen]
      omega
    · rw [fsNy, hpack, length_writeBytes]
      · rw [length_fsDims ohdr w h hlen]
        omega
      · rw [fsNx, hpack, length_fsDims ohdr w h hlen]
        omega
  · exact length_fsDims ohdr w h hlen

theorem byteAt_fsHot_low {packf : ℚ → List Nat} {unpackf : List Nat → ℚ} {ohdr : List Nat}
    {w h : Nat} {fr : Bool} (hlen : 50 ≤ ohdr.length)
    (hpack : ∀ q, (packf q).length = 4) {j : Nat} (hj : j < 16) :
    byteAt (fsHot packf unpackf ohdr w h fr) j = byteAt (fsDims ohdr w h) j := by
  rw [fsHot_eq_ite]
  split
  · have li : (writeBytes (fsDims ohdr w h) 16 (fsNx packf unpackf ohdr w)).length = 50 := by
      rw [length_writeBytes]
      · exact length_fsDims ohdr w h hlen
      · rw [fsNx, hpack, length_fsDims ohdr w h hlen]
        omega
    rw [byteAt_writeBytes_lt (by rw [fsNy, hpack, li]; omega) (by omega),
      byteAt_writeBytes_lt
        (by rw [fsNx, hpack, length_fsDims ohdr w h hlen]; omega) (by omega)]
  · rfl

theorem byteAt_fsHot_hi {packf : ℚ → List Nat} {unpackf : List Nat → ℚ} {ohdr : List Nat}
    {w h : Nat} {fr : Bool} (hlen : 50 ≤ ohdr.length)
    (hpack : ∀ q, (packf q).length = 4) {j : Nat} (h24 : 24 ≤ j) :
    byteAt (fsHot packf unpackf ohdr w h fr) j = byteAt (fsDims ohdr w h) j := by
  rw [fsHot_eq_ite]
  split
  · have li : (writeBytes (fsDims ohdr w h) 16 (fsNx packf unpackf ohdr w)).length = 50 := by
      rw [length_writeBytes]
      · exact length_fsDims ohdr w h hlen
      · rw [fsNx, hpack, length_fsDims ohdr w h hlen]
        omega
    rw [byteAt_writeBytes_ge (by rw [fsNy, hpack, li]; omega) (by rw [fsNy, hpack]; omega),
      byteAt_writeBytes_ge
        (by rw [fsNx, hpack, length_fsDims ohdr w h hlen]; omega)
        (by rw [fsNx, hpack]; omega)]
  · rfl

theorem byteAt_fsHot_x {packf : ℚ → List Nat} {unpackf : List Nat → ℚ} {ohdr : List Nat}
    {w h : Nat} {fr : Bool} (hlen : 50 ≤ ohdr.length)
    (hpack : ∀ q, (packf q).length = 4)
    (hc : fr = true ∧ 0 < u16At ohdr 0 ∧ 0 < u16At ohdr 2) {j : Nat} (hj : j < 4) :
    byteAt (fsHot packf unpackf ohdr w h fr) (16 + j) =
      byteAt (fsNx packf unpackf ohdr w) j := by
  rw [fsHot_eq_ite, if_pos hc]
  have li : (writeBytes (fsDims ohdr w h) 16 (fsNx packf unpackf ohdr w)).length = 50 := by
    rw [length_writeBytes]
    · exact length_fsDims ohdr w h hlen
    · rw [fsNx, hpack, length_fsDims ohdr w h hlen]
      omega
  rw [byteAt_writeBytes_lt (by rw [fsNy, hpack, li]; omega) (by omega),
    byteAt_writeBytes_mid
      (by rw [fsNx, hpack, length_fsDims ohdr w h hlen]; omega) (by omega)
      (by rw [fsNx, hpack]; omega)]
  congr 1
  omega

theorem byteAt_fsHot_y {packf : ℚ → List Nat} {unpackf : List Nat → ℚ} {ohdr : List Nat}
    {w h : Nat} {fr : Bool} (hlen : 50 ≤ ohdr.length)
    (hpack : ∀ q, (packf q).length = 4)
    (hc : fr = true ∧ 0 < u16At ohdr 0 ∧ 0 < u16At ohdr 2) {j : Nat} (hj : j < 4) :
    byteAt (fsHot packf unpackf ohdr w h fr) (20 + j) =
      byteAt (fsNy packf unpackf ohdr h) j := by
  rw [fsHot_eq_ite, if_pos hc]
  have li : (writeBytes (fsDims ohdr w h) 16 (fsNx packf unpackf ohdr w)).length = 50 := by
    rw [length_writeBytes]
    · exact length_fsDims ohdr w h hlen
    · rw [fsNx, hpack, length_fsDims ohdr w h hlen]
      omega
  rw [byteAt_writeBytes_mid (by rw [fsNy, hpack, li]; omega) (by omega)
    (by rw [fsNy, hpack]; omega)]
  congr 1
  omega

theorem fsHot_of_not {packf : ℚ → List Nat} {unpackf : List Nat → ℚ} {ohdr : List Nat}
    {w h : Nat} {fr : Bool}
    (hc : ¬ (fr = true ∧ 0 < u16At ohdr 0 ∧ 0 < u16At ohdr 2)) :
    fsHot packf unpackf ohdr w h fr = fsDims ohdr w h := by
  rw [fsHot_eq_ite, if_neg hc]

theorem length_fsSize {packf : ℚ → List Nat} {unpackf : List Nat → ℚ} {ohdr : List Nat}
    {w h : Nat} {fr : Bool} {ps : Nat} (hlen : 50 ≤ ohdr.length)
    (hpack : ∀ q, (packf q).length = 4) :
    (fsSize packf unpackf ohdr w h fr ps).length = 50 := by
  unfold fsSize
  exact length_setU16_50 (length_fsHot hlen hpack) (by omega)

theorem byteAt_fsSize_lt46 {packf : ℚ → List Nat} {unpackf : List Nat → ℚ} {ohdr : List Nat}
    {w h : Nat} {fr : Bool} {ps : Nat} (hlen : 50 ≤ ohdr.length)
    (hpack : ∀ q, (packf q).length = 4) {j : Nat} (hj : j < 46) :
    byteAt (fsSize packf unpackf ohdr w h fr ps) j =
      byteAt (fsHot packf unpackf ohdr w h fr) j := by
  unfold fsSize
  exact byteAt_setU16_lt50 (length_fsHot hlen hpack) (by omega) hj

theorem byteAt_fsSize_hi {packf : ℚ → List Nat} {unpackf : List Nat → ℚ} {ohdr : List Nat}
    {w h : Nat} {fr : Bool} {ps : Nat} (hlen : 50 ≤ ohdr.length)
    (hpack : ∀ q, (packf q).length = 4) {j : Nat} (hj : 48 ≤ j) :
    byteAt (fsSize packf unpackf ohdr w h fr ps) j =
      byteAt (fsHot packf unpackf ohdr w h fr) j := by
  unfold fsSize
  exact byteAt_setU16_ge50 (length_fsHot hlen hpack) (by omega) (by omega)

theorem u16At_fsSize_46 {packf : ℚ → List Nat} {unpackf : List Nat → ℚ} {ohdr : List Nat}
    {w h : Nat} {fr : Bool} {ps : Nat} (hlen : 50 ≤ ohdr.length)
    (hpack : ∀ q, (packf q).length = 4) :
    u16At (fsSize packf unpackf ohdr w h fr ps) 46 = ps % 65536 := by
  unfold fsSize
  exact u16At_setU16_self (by rw [length_fsHot hlen hpack]; omega)

theorem length_buildHeaderFS {packf : ℚ → List Nat} {unpackf : List Nat → ℚ}
    {ohdr : List Nat} {w h : Nat} {fr : Bool} {ps : Nat} (hlen : 50 ≤ ohdr.length)
    (hpack : ∀ q, (packf q).length = 4) :
    (buildHeaderFS packf unpackf ohdr w h fr ps).length = 50 := by
  unfold buildHeaderFS
  split
  · rw [length_writeBytes]
    · exact length_fsSize hlen hpack
    · rw [length_fsSize hlen hpack]
      simp
  · exact length_fsSize hlen hpack

theorem buildHeaderFS_of_eq {packf : ℚ → List Nat} {unpackf : List Nat → ℚ}
    {ohdr : List Nat} {w h : Nat} {fr : Bool} {ps : Nat}
    (heq : ¬ (u16At ohdr 0 ≠ w ∨ u16At ohdr 2 ≠ h)) :
    buildHeaderFS packf unpackf ohdr w h fr ps =
      fsSize packf unpackf ohdr w h fr ps := by
  unfold buildHeaderFS
  rw [if_neg heq]

theorem byteAt_buildHeaderFS_low {packf : ℚ → List Nat} {unpackf : List Nat → ℚ}
    {ohdr : List Nat} {w h : Nat} {fr : Bool} {ps : Nat} (hlen : 50 ≤ ohdr.length)
    (hpack : ∀ q, (packf q).length = 4)
    (hdiff : u16At ohdr 0 ≠ w ∨ u16At ohdr 2 ≠ h) {j : Nat} (hj : j < 20) :
    byteAt (buildHeaderFS packf unpackf ohdr w h fr ps) j =
      byteAt (fsSize packf unpackf ohdr w h fr ps) j := by
  unfold buildHeaderFS
  rw [if_pos hdiff]
  exact byteAt_writeBytes_lt (by rw [length_fsSize hlen hpack]; simp) hj

theorem byteAt_buildHeaderFS_zeroed {packf : ℚ → List Nat} {unpackf : List Nat → ℚ}
    {ohdr : List Nat} {w h : Nat} {fr : Bool} {ps : Nat} (hlen : 50 ≤ ohdr.length)
    (hpack : ∀ q, (packf q).length = 4)
    (hdiff : u16At ohdr 0 ≠ w ∨ u16At ohdr 2 ≠ h) {j : Nat} (h20 : 20 ≤ j) (h46 : j < 46) :
    byteAt (buildHeaderFS packf unpackf ohdr w h fr ps) j = 0 := by
  unfold buildHeaderFS
  rw [if_pos hdiff,
    byteAt_writeBytes_mid (by rw [length_fsSize hlen hpack]; simp) h20 (by simp; omega),
    byteAt_replicate]
  simp

theorem byteAt_buildHeaderFS_hi {packf : ℚ → List Nat} {unpackf : List Nat → ℚ}
    {ohdr : List Nat} {w h : Nat} {fr : Bool} {ps : Nat} (hlen : 50 ≤ ohdr.length)
    (hpack : ∀ q, (packf q).length = 4)
    (hdiff : u16At ohdr 0 ≠ w ∨ u16At ohdr 2 ≠ h) {j : Nat} (hj : 46 ≤ j) :
    byteAt (buildHeaderFS packf unpackf ohdr w h fr ps) j =
      byteAt (fsSize packf unpackf ohdr w h fr ps) j := by
  unfold buildHeaderFS
  rw [if_pos hdiff]
  exact byteAt_writeBytes_ge (by rw [length_fsSize hlen hpack]; simp) (by simp; omega)

theorem length_ilDims (ohdr : List Nat) (w h ps : Nat) (hlen : 50 ≤ ohdr.length) :
    (ilDims ohdr w h ps).length = 50 := by
  unfold ilDims
  exact length_setU16_50 (length_setU16_50 (length_setU16_50 (length_setU16_50
    (length_setU16_50 (length_setU16_50 (length_setU16_50 (length_take50 hlen)
    (by omega)) (by omega)) (by omega)) (by omega)) (by omega)) (by omega)) (by omega)

/-- Byte map of the dimension and size writes of the inline encoder. -/
theorem byteAt_ilDims (ohdr : List Nat) (w h ps : Nat) (hlen : 50 ≤ ohdr.length)
    (j : Nat) (hj : j < 50) :
    byteAt (ilDims ohdr w h ps) j =
      if j < 2 then byteAt (packU16 w) j
      else if j < 4 then byteAt (packU16 h) (j - 2)
      else if j < 6 then byteAt (packU16 w) (j - 4)
      else if j < 8 then byteAt (packU16 h) (j - 6)
      else if j < 12 then byteAt ohdr j
      else if j < 14 then byteAt (packU16 w) (j - 12)
      else if j < 16 then byteAt (packU16 h) (j - 14)
      else if j < 46 then byteAt ohdr j
      else if j < 48 then byteAt (packU16 ps) (j - 46)
      else byteAt ohdr j := by
  have m0 := length_take50 hlen
  have m1 : (setU16 (ohdr.take 50) 0 w).length = 50 := length_setU16_50 m0 (by omega)
  have m2 : (setU16 (setU16 (ohdr.take 50) 0 w) 2 h).length = 50 :=
    length_setU16_50 m1 (by omega)
  have m3 : (setU16 (setU16 (setU16 (ohdr.take 50) 0 w) 2 h) 4 w).length = 50 :=
    length_setU16_50 m2 (by omega)
  have m4 : (setU16 (setU16 (setU16 (setU16 (ohdr.take 50) 0 w) 2 h) 4 w) 6 h).length
      = 50 := length_setU16_50 m3 (by omega)
  have m5 : (setU16 (setU16 (setU16 (setU16 (setU16 (ohdr.take 50) 0 w) 2 h) 4 w) 6 h)
      12 w).length = 50 := length_setU16_50 m4 (by omega)
  have m6 : (setU16 (setU16 (setU16 (setU16 (setU16 (setU16 (ohdr.take 50) 0 w) 2 h)
      4 w) 6 h) 12 w) 14 h).length = 50 := length_setU16_50 m5 (by omega)
  unfold ilDims
  rcases (show j < 2 ∨ (2 ≤ j ∧ j < 4) ∨ (4 ≤ j ∧ j < 6) ∨ (6 ≤ j ∧ j < 8) ∨
      (8 ≤ j ∧ j < 12) ∨ (12 ≤ j ∧ j < 14) ∨ (14 ≤ j ∧ j < 16) ∨ (16 ≤ j ∧ j < 46) ∨
      (46 ≤ j ∧ j < 48) ∨ 48 ≤ j from by omega)
    with hr | hr | hr | hr | hr | hr | hr | hr | hr | hr
  · rw [byteAt_setU16_lt50 m6 (by omega) (by omega),
      byteAt_setU16_lt50 m5 (by omega) (by omega),
      byteAt_setU16_lt50 m4 (by omega) (by omega),
      byteAt_setU16_lt50 m3 (by omega) (by omega),
      byteAt_setU16_lt50 m2 (by omega) (by omega),
      byteAt_setU16_lt50 m1 (by omega) (by omega),
      byteAt_setU16_mid50 m0 (by omega) (by omega) (by omega)]
    simp [hr]
  · rw [byteAt_setU16_lt50 m6 (by omega) (by omega),
      byteAt_setU16_lt50 m5 (by omega) (by omega),
      byteAt_setU16_lt50 m4 (by omega) (by omega),
      byteAt_setU16_lt50 m3 (by omega) (by omega),
      byteAt_setU16_lt50 m2 (by omega) (by omega),
      byteAt_setU16_mid50 m1 (by omega) (by omega) (by omega)]
    have e2 : ¬ j < 2 := by omega
    simp [e2, hr.2]
  · rw [byteAt_setU16_lt50 m6 (by omega) (by omega),
      byteAt_setU16_lt50 m5 (by omega) (by omega),
      byteAt_setU16_lt50 m4 (by omega) (by omega),
      byteAt_setU16_lt50 m3 (by omega) (by omega),
      byteAt_setU16_mid50 m2 (by omega) (by omega) (by omega)]
    have e2 : ¬ j < 2 := by omega
    have e4 : ¬ j < 4 := by omega
    simp [e2, e4, hr.2]
  · rw [byteAt_setU16_lt50 m6 (by omega) (by omega),
      byteAt_setU16_lt50 m5 (by omega) (by omega),
      byteAt_setU16_lt50 m4 (by omega) (by omega),
      byteAt_setU16_mid50 m3 (by omega) (by omega) (by omega)]
    have e2 : ¬ j < 2 := by omega
    have e4 : ¬ j < 4 := by omega
    have e6 : ¬ j < 6 := by omega
    simp [e2, e4, e6, hr.2]
  · rw [byteAt_setU16_lt50 m6 (by omega) (by omega),
      byteAt_setU16_lt50 m5 (by omega) (by omega),
      byteAt_setU16_lt50 m4 (by omega) (by omega),
      byteAt_setU16_ge50 m3 (by omega) (by omega),
      byteAt_setU16_ge50 m2 (by omega) (by omega),
      byteAt_setU16_ge50 m1 (by omega) (by omega),
      byteAt_setU16_ge50 m0 (by omega) (by omega),
      byteAt_take (by omega)]
    have e2 : ¬ j < 2 := by omega
    have e4 : ¬ j < 4 := by omega
    have e6 : ¬ j < 6 := by omega
    have e8 : ¬ j < 8 := by omega
    simp [e2, e4, e6, e8, hr.2]
  · rw [byteAt_setU16_lt50 m6 (by omega) (by omega),
      byteAt_setU16_lt50 m5 (by omega) (by omega),
      byteAt_setU16_mid50 m4 (by omega) (by omega) (by omega)]
    have e2 : ¬ j < 2 := by omega
    have e4 : ¬ j < 4 := by omega
    have e6 : ¬ j < 6 := by omega
    have e8 : ¬ j < 8 := by omega
    have e12 : ¬ j < 12 := by omega
    simp [e2, e4, e6, e8, e12, hr.2]
  · rw [byteAt_setU16_lt50 m6 (by omega) (by omega),
      byteAt_setU16_mid50 m5 (by omega) (by omega) (by omega)]
    have e2 : ¬ j < 2 := by omega
    have e4 : ¬ j < 4 := by omega
    have e6 : ¬ j < 6 := by omega
    have e8 : ¬ j < 8 := by omega
    have e12 : ¬ j < 12 := by omega
    have e14 : ¬ j < 14 := by omega
    simp [e2, e4, e6, e8, e12, e14, hr.2]
  · rw [byteAt_setU16_lt50 m6 (by omega) (by omega),
      byteAt_setU16_ge50 m5 (by omega) (by omega),
      byteAt_setU16_ge50 m4 (by omega) (by omega),
      byteAt_setU16_ge50 m3 (by omega) (by omega),
      byteAt_setU16_ge50 m2 (by omega) (by omega),
      byteAt_setU16_ge50 m1 (by omega) (by omega),
      byteAt_setU16_ge50 m0 (by omega) (by omega),
      byteAt_take (by omega)]
    have e2 : ¬ j < 2 := by omega
    have e4 : ¬ j < 4 := by omega
    have e6 : ¬ j < 6 := by omega
    have e8 : ¬ j < 8 := by omega
    have e12 : ¬ j < 12 := by omega
    have e14 : ¬ j < 14 := by omega
    have e16 : ¬ j < 16 := by omega
    simp [e2, e4, e6, e8, e12, e14, e16, hr.2]
  · rw [byteAt_setU16_mid50 m6 (by omega) (by omega) (by omega)]
    have e2 : ¬ j < 2 := by omega
    have e4 : ¬ j < 4 := by omega
    have e6 : ¬ j < 6 := by omega
    have e8 : ¬ j < 8 := by omega
    have e12 : ¬ j < 12 := by omega
    have e14 : ¬ j < 14 := by omega
    have e16 : ¬ j < 16 := by omega
    have e46 : ¬ j < 46 := by omega
    simp [e2, e4, e6, e8, e12, e14, e16, e46, hr.2]
  · rw [byteAt_setU16_ge50 m6 (by omega) (by omega),
      byteAt_setU16_ge50 m5 (by omega) (by omega),
      byteAt_setU16_ge50 m4 (by omega) (by omega),
      byteAt_setU16_ge50 m3 (by omega) (by omega),
      byteAt_setU16_ge50 m2 (by omega) (by omega),
      byteAt_setU16_ge50 m1 (by omega) (by omega),
      byteAt_setU16_ge50 m0 (by omega) (by omega),
      byteAt_take (by omega)]
    have e2 : ¬ j < 2 := by omega
    have e4 : ¬ j < 4 := by omega
    have e6 : ¬ j < 6 := by omega
    have e8 : ¬ j < 8 := by omega
    have e12 : ¬ j < 12 := by omega
    have e14 : ¬ j < 14 := by omega
    have e16 : ¬ j < 16 := by omega
    have e46 : ¬ j < 46 := by omega
    have e48 : ¬ j < 48 := by omega
    simp [e2, e4, e6, e8, e12, e14, e16, e46, e48]

theorem buildHeaderInline_eq_ite (packf : ℚ → List Nat) (unpackf : List Nat → ℚ)
    (ohdr : List Nat) (w h ps : Nat) :
    buildHeaderInline packf unpackf ohdr w h ps =
      if u16At ohdr 0 ≠ w ∨ u16At ohdr 2 ≠ h then
        writeBytes (ilDims ohdr w h ps) 20 (List.replicate 26 0)
      else if 0 < u16At ohdr 0 ∧ 0 < u16At ohdr 2 then
        writeBytes (writeBytes (ilDims ohdr w h ps) 16 (ilNx packf unpackf ohdr w))
          20 (ilNy packf unpackf ohdr h)
      else ilDims ohdr w h ps := rfl

theorem length_buildHeaderInline {packf : ℚ → List Nat} {unpackf : List Nat → ℚ}
    {ohdr : List Nat} {w h ps : Nat} (hlen : 50 ≤ ohdr.length)
    (hpack : ∀ q, (packf q).length = 4) :
    (buildHeaderInline packf unpackf ohdr w h ps).length = 50 := by
  rw [buildHeaderInline_eq_ite]
  have md := length_ilDims ohdr w h ps hlen
  split
  · rw [length_writeBytes]
    · exact md
    · rw [md]
      simp
  · split
    · have li : (writeBytes (ilDims ohdr w h ps) 16 (ilNx packf unpackf ohdr w)).length
          = 50 := by
        rw [length_writeBytes]
        · exact md
        · rw [ilNx, hpack, md]
          omega
      rw [length_writeBytes]
      · exact li
      · rw [ilNy, hpack, li]
        omega
    · exact md

theorem byteAt_buildHeaderInline_zeroed {packf : ℚ → List Nat} {unpackf : List Nat → ℚ}
    {ohdr : List Nat} {w h ps : Nat} (hlen : 50 ≤ ohdr.length)
    (hdiff : u16At ohdr 0 ≠ w ∨ u16At ohdr 2 ≠ h) {j : Nat} (h20 : 20 ≤ j) (h46 : j < 46) :
    byteAt (buildHeaderInline packf unpackf ohdr w h ps) j = 0 := by
  rw [buildHeaderInline_eq_ite, if_pos hdiff,
    byteAt_writeBytes_mid (by rw [length_ilDims ohdr w h ps hlen]; simp) h20
      (by simp; omega),
    byteAt_replicate]
  simp

theorem byteAt_buildHeaderInline_low {packf : ℚ → List Nat} {unpackf : List Nat → ℚ}
    {ohdr : List Nat} {w h ps : Nat} (hlen : 50 ≤ ohdr.length)
    (hdiff : u16At ohdr 0 ≠ w ∨ u16At ohdr 2 ≠ h) {j : Nat} (hj : j < 20) :
    byteAt (buildHeaderInline packf unpackf ohdr w h ps) j =
      byteAt (ilDims ohdr w h ps) j := by
  rw [buildHeaderInline_eq_ite, if_pos hdiff]
  exact byteAt_writeBytes_lt (by rw [length_ilDims ohdr w h ps hlen]; simp) hj

theorem byteAt_buildHeaderInline_hi {packf : ℚ → List Nat} {unpackf : List Nat → ℚ}
    {ohdr : List Nat} {w h ps : Nat} (hlen : 50 ≤ ohdr.length)
    (hdiff : u16At ohdr 0 ≠ w ∨ u16At ohdr 2 ≠ h) {j : Nat} (hj : 46 ≤ j) :
    byteAt (buildHeaderInline packf unpackf ohdr w h ps) j =
      byteAt (ilDims ohdr w h ps) j := by
  rw [buildHeaderInline_eq_ite, if_pos hdiff]
  exact byteAt_writeBytes_ge (by rw [length_ilDims ohdr w h ps hlen]; simp)
    (by simp; omega)

theorem byteAt_buildHeaderInline_eq_pos_x {packf : ℚ → List Nat} {unpackf : List Nat → ℚ}
    {ohdr : List Nat} {w h ps : Nat} (hlen : 50 ≤ ohdr.length)
    (hpack : ∀ q, (packf q).length = 4)
    (heq : ¬ (u16At ohdr 0 ≠ w ∨ u16At ohdr 2 ≠ h))
    (hpos : 0 < u16At ohdr 0 ∧ 0 < u16At ohdr 2) {j : Nat} (hj : j < 4) :
    byteAt (buildHeaderInline packf unpackf ohdr w h ps) (16 + j) =
      byteAt (ilNx packf unpackf ohdr w) j := by
  rw [buildHeaderInline_eq_ite, if_neg heq, if_pos hpos]
  have md := length_ilDims ohdr w h ps hlen
  have li : (writeBytes (ilDims ohdr w h ps) 16 (ilNx packf unpackf ohdr w)).length
      = 50 := by
    rw [length_writeBytes]
    · exact md
    · rw [ilNx, hpack, md]
      omega
  rw [byteAt_writeBytes_lt (by rw [ilNy, hpack, li]; omega) (by omega),
    byteAt_writeBytes_mid (by rw [ilNx, hpack, md]; omega) (by omega)
      (by rw [ilNx, hpack]; omega)]
  have e : 16 + j - 16 = j := by omega
  rw [e]

theorem byteAt_buildHeaderInline_eq_pos_y {packf : ℚ → List Nat} {unpackf : List Nat → ℚ}
    {ohdr : List Nat} {w h ps : Nat} (hlen : 50 ≤ ohdr.length)
    (hpack : ∀ q, (packf q).length = 4)
    (heq : ¬ (u16At ohdr 0 ≠ w ∨ u16At ohdr 2 ≠ h))
    (hpos : 0 < u16At ohdr 0 ∧ 0 < u16At ohdr 2) {j : Nat} (hj : j < 4) :
    byteAt (buildHeaderInline packf unpackf ohdr w h ps) (20 + j) =
      byteAt (ilNy packf unpackf ohdr h) j := by
  rw [buildHeaderInline_eq_ite, if_neg heq, if_pos hpos]
  have md := length_ilDims ohdr w h ps hlen
  have li : (writeBytes (ilDims ohdr w h ps) 16 (ilNx packf unpackf ohdr w)).length
      = 50 := by
    rw [length_writeBytes]
    · exact md
    · rw [ilNx, hpack, md]
      omega
  rw [byteAt_writeBytes_mid (by rw [ilNy, hpack, li]; omega) (by omega)
    (by rw [ilNy, hpack]; omega)]
  have e : 20 + j - 20 = j := by omega
  rw [e]

theorem byteAt_buildHeaderInline_eq_pos_rest {packf : ℚ → List Nat}
    {unpackf : List Nat → ℚ} {ohdr : List Nat} {w h ps : Nat} (hlen : 50 ≤ ohdr.length)
    (hpack : ∀ q, (packf q).length = 4)
    (heq : ¬ (u16At ohdr 0 ≠ w ∨ u16At ohdr 2 ≠ h))
    (hpos : 0 < u16At ohdr 0 ∧ 0 < u16At ohdr 2) {j : Nat} (hj : j < 16 ∨ 24 ≤ j) :
    byteAt (buildHeaderInline packf unpackf ohdr w h ps) j =
      byteAt (ilDims ohdr w h ps) j := by
  rw [buildHeaderInline_eq_ite, if_neg heq, if_pos hpos]
  have md := length_ilDims ohdr w h ps hlen
  have li : (writeBytes (ilDims ohdr w h ps) 16 (ilNx packf unpackf ohdr w)).length
      = 50 := by
    rw [length_writeBytes]
    · exact md
    · rw [ilNx, hpack, md]
      omega
  rcases hj with hj | hj
  · rw [byteAt_writeBytes_lt (by rw [ilNy, hpack, li]; omega) (by omega),
      byteAt_writeBytes_lt (by rw [ilNx, hpack, md]; omega) (by omega)]
  · rw [byteAt_writeBytes_ge (by rw [ilNy, hpack, li]; omega)
      (by rw [ilNy, hpack]; omega),
      byteAt_writeBytes_ge (by rw [ilNx, hpack, md]; omega)
      (by rw [ilNx, hpack]; omega)]

theorem buildHeaderInline_eq_notpos {packf : ℚ → List Nat} {unpackf : List Nat → ℚ}
    {ohdr : List Nat} {w h ps : Nat}
    (heq : ¬ (u16At ohdr 0 ≠ w ∨ u16At ohdr 2 ≠ h))
    (hpos : ¬ (0 < u16At ohdr 0 ∧ 0 < u16At ohdr 2)) :
    buildHeaderInline packf unpackf ohdr w h ps = ilDims ohdr w h ps := by
  rw [buildHeaderInline_eq_ite, if_neg heq, if_neg hpos]

theorem u16At_append_left {l l2 : List Nat} {p : Nat} (h : p + 2 ≤ l.length) :
    u16At (l ++ l2) p = u16At l p := by
  unfold u16At
  rw [byteAt_append_left (by omega), byteAt_append_left (by omega)]

/-! ## Claim C3 -/

/-- C3: for both encoders, the size-limit error is raised exactly when the
effective pixel buffer exceeds 65535 bytes (the check precedes every other
step, so no oversized payload is ever truncated into a result), and a
buffer of at most 65535 bytes never raises it. -/
theorem C3_encode_size_limit
    (packf : ℚ → List Nat) (unpackf : List Nat → ℚ) (compress9 : List Nat → List Nat)
    (compress : Nat → List Nat → List Nat) (resizeBytes : Nat → Nat → List Nat)
    (img img2 : PILImage) (originalHeader : Option (List Nat)) (ohdr2 : List Nat)
    (force : Option (Nat × Nat)) :
    (encode_chowdren_image packf unpackf compress9 resizeBytes img originalHeader force
        = .error .sizeLimitExceeded ↔
      65535 < (forcedPixels resizeBytes img force).length) ∧
    (encode_chowdren_image_inline packf unpackf compress img2 ohdr2
        = .error .sizeLimitExceeded ↔ 65535 < img2.bytes.length) := by
  constructor
  · unfold encode_chowdren_image
    by_cases hs : 65535 < (forcedPixels resizeBytes img force).length
    · simp [hs]
    · simp [hs]
  · unfold encode_chowdren_image_inline
    by_cases hs : 65535 < img2.bytes.length
    · simp [hs]
    · by_cases hh : ohdr2.length < 50 <;> simp [hs, hh]

/-! ## Claim C5 -/

/-- C5 (counterexample): reading one record from a 4-byte source returns
the empty list, a plain short result, instead of failing with a
truncated-table error. -/
theorem C5_counterexample :
    read_asset_table (List.replicate 4 0) 0 1 = [] ∧
    (read_asset_table (List.replicate 4 0) 0 1).length < 1 := by decide

/-- C5 (amended): `read_asset_table` returns one record per full 8-byte
chunk available, so its result length is `min count ((len - off) / 8)` —
on truncation it silently returns a shorter sequence — and when
`count * 8` bytes are available it returns exactly `count` little-endian
`(u32 offset, u32 size)` records in order. -/
theorem C5_read_asset_table_truncation (file : List Nat) (off count : Nat) :
    (read_asset_table file off count).length = min count ((file.length - off) / 8) ∧
    (off + 8 * count ≤ file.length →
      read_asset_table file off count =
        (List.range count).map
          (fun i => (u32At file (off + 8 * i), u32At file (off + 8 * i + 4)))) := by
  induction count generalizing off with
  | zero => simp [read_asset_table]
  | succ n ih =>
    constructor
    · unfold read_asset_table
      by_cases hc : off + 8 ≤ file.length
      · rw [if_pos hc]
        have := (ih (off + 8)).1
        simp only [List.length_cons, this]
        omega
      · rw [if_neg hc]
        simp only [List.length_nil]
        omega
    · intro hfull
      unfold read_asset_table
      rw [if_pos (by omega)]
      have htail := (ih (off + 8)).2 (by omega)
      rw [htail, List.range_succ_eq_map, List.map_cons, List.map_map]
      refine List.cons_eq_cons.mpr ⟨by simp, ?_⟩
      apply List.map_congr_left
      intro i _
      simp only [Function.comp_apply, Nat.succ_eq_add_one]
      have e1 : off + 8 + 8 * i = off + 8 * (i + 1) := by ring
      rw [e1]

/-- C5 (witness): on a 16-byte source, two full records are read back. -/
theorem C5_witness :
    (read_asset_table (List.replicate 16 7) 0 2).length = 2 ∧
    read_asset_table (List.replicate 16 7) 0 2 =
      (List.range 2).map
        (fun i => (u32At (List.replicate 16 7) (0 + 8 * i),
          u32At (List.replicate 16 7) (0 + 8 * i + 4))) := by
  have h := C5_read_asset_table_truncation (List.replicate 16 7) 0 2
  refine ⟨?_, h.2 (by decide)⟩
  rw [h.1]
  decide

/-! ## Claim C7 -/

/-- C7 (counterexample): a 50-byte blob with 1x1 dimensions and no
compression marker anywhere in its first 100 bytes is reported valid, and a
blob with dimensions exactly 4096 is also reported valid, contradicting the
claimed acceptance condition (marker required, 4096 rejected). -/
theorem C7_counterexample :
    diagnose_bin_file blobC7 = true ∧
    findMarkerFrom blobC7 0 (min 100 (blobC7.length - 1)) = none ∧
    diagnose_bin_file blobC7b = true ∧
    u16At blobC7b 0 = 4096 ∧ u16At blobC7b 2 = 4096 := by decide

/-- C7 (amended): `diagnose_bin_file` accepts a blob exactly when it is at
least 50 bytes long and both dimensions of the first header copy lie in
`[1, 4096]` (4096 itself accepted, only larger values rejected); the
compression-marker scan and the declared-size comparison are printed
warnings that do not affect validity. -/
theorem C7_diagnose_characterization (data : List Nat) :
    diagnose_bin_file data = true ↔
      (50 ≤ data.length ∧ 1 ≤ u16At data 0 ∧ 1 ≤ u16At data 2 ∧
        u16At data 0 ≤ 4096 ∧ u16At data 2 ≤ 4096) := by
  unfold diagnose_bin_file
  split_ifs with h1 h2 h3 <;> simp <;> omega

/-! ## Claim C6 -/

/-- C6 (counterexample): a blob declaring 1x1 whose payload inflates to 2
bytes (neither the RGBA size 4 nor the RGB size 3) is decoded without any
error: the decoder pads the buffer with `0xff` bytes and returns it. -/
theorem C6_counterexample :
    decode_chowdren_image inflateStored blobC6 =
      .ok ⟨.RGBA, 1, 1, [170, 187, 255, 255]⟩ := by rfl

/-- C6 (amended): decoding never raises a size-mismatch error: whenever the
marker is found and the payload inflates, `decode_chowdren_image` returns a
result unconditionally — the exact RGBA size is returned unchanged, the
exact RGB size is returned as an unpadded `width*height*3`-byte RGB buffer,
and every other inflated size is coerced to `width*height*4` RGBA bytes by
padding with `0xff` (short payload) or truncating (long payload); no
size-mismatch error and no strict mode exist. -/
theorem C6_decode_lenient (decompress : List Nat → Option (List Nat))
    (data pd : List Nat) (k : Nat) (hlen : 4 ≤ data.length)
    (hmk : findMarkerFrom data 0 (data.length - 1) = some k)
    (hdc : decompress (data.drop k) = some pd) :
    decode_chowdren_image decompress data =
      .ok (if pd.length = u16At data 0 * u16At data 2 * 4 then
            ⟨.RGBA, u16At data 0, u16At data 2, pd⟩
          else if pd.length = u16At data 0 * u16At data 2 * 3 then
            ⟨.RGB, u16At data 0, u16At data 2, pd⟩
          else if pd.length < u16At data 0 * u16At data 2 * 4 then
            ⟨.RGBA, u16At data 0, u16At data 2,
              pd ++ List.replicate (u16At data 0 * u16At data 2 * 4 - pd.length) 255⟩
          else ⟨.RGBA, u16At data 0, u16At data 2,
            pd.take (u16At data 0 * u16At data 2 * 4)⟩) := by
  have h4 : ¬ data.length < 4 := by omega
  simp only [decode_chowdren_image, h4, if_false, hmk, hdc]
  split_ifs <;> rfl

/-- C6 (witness): the amended lenient-decode theorem evaluated on the
concrete mismatching blob. -/
theorem C6_witness :
    decode_chowdren_image inflateStored blobC6 =
      .ok (if ([170, 187] : List Nat).length = u16At blobC6 0 * u16At blobC6 2 * 4 then
            ⟨.RGBA, u16At blobC6 0, u16At blobC6 2, [170, 187]⟩
          else if ([170, 187] : List Nat).length = u16At blobC6 0 * u16At blobC6 2 * 3 then
            ⟨.RGB, u16At blobC6 0, u16At blobC6 2, [170, 187]⟩
          else if ([170, 187] : List Nat).length < u16At blobC6 0 * u16At blobC6 2 * 4 then
            ⟨.RGBA, u16At blobC6 0, u16At blobC6 2,
              [170, 187] ++ List.replicate (u16At blobC6 0 * u16At blobC6 2 * 4 -
                ([170, 187] : List Nat).length) 255⟩
          else ⟨.RGBA, u16At blobC6 0, u16At blobC6 2,
            ([170, 187] : List Nat).take (u16At blobC6 0 * u16At blobC6 2 * 4)⟩) :=
  C6_decode_lenient inflateStored blobC6 [170, 187] 50 (by decide) (by decide) (by decide)

/-! ## Dimension-copy helpers for the encoder claims -/

theorem u16At_fsSize_dims {packf : ℚ → List Nat} {unpackf : List Nat → ℚ}
    {ohdr : List Nat} {w h : Nat} {fr : Bool} {ps : Nat} (hlen : 50 ≤ ohdr.length)
    (hpack : ∀ q, (packf q).length = 4) :
    u16At (fsSize packf unpackf ohdr w h fr ps) 0 = w % 65536 ∧
    u16At (fsSize packf unpackf ohdr w h fr ps) 4 = w % 65536 ∧
    u16At (fsSize packf unpackf ohdr w h fr ps) 12 = w % 65536 ∧
    u16At (fsSize packf unpackf ohdr w h fr ps) 2 = h % 65536 ∧
    u16At (fsSize packf unpackf ohdr w h fr ps) 6 = h % 65536 ∧
    u16At (fsSize packf unpackf ohdr w h fr ps) 14 = h % 65536 := by
  refine ⟨?_, ?_, ?_, ?_, ?_, ?_⟩ <;>
  · unfold u16At
    rw [byteAt_fsSize_lt46 hlen hpack (by omega), byteAt_fsSize_lt46 hlen hpack (by omega),
      byteAt_fsHot_low hlen hpack (by omega), byteAt_fsHot_low hlen hpack (by omega),
      byteAt_fsDims ohdr w h hlen _ (by omega), byteAt_fsDims ohdr w h hlen _ (by omega)]
    norm_num [byteAt_packU16_0, byteAt_packU16_1]
    omega

theorem u16At_ilDims_dims (ohdr : List Nat) (w h ps : Nat) (hlen : 50 ≤ ohdr.length) :
    u16At (ilDims ohdr w h ps) 0 = w % 65536 ∧
    u16At (ilDims ohdr w h ps) 4 = w % 65536 ∧
    u16At (ilDims ohdr w h ps) 12 = w % 65536 ∧
    u16At (ilDims ohdr w h ps) 2 = h % 65536 ∧
    u16At (ilDims ohdr w h ps) 6 = h % 65536 ∧
    u16At (ilDims ohdr w h ps) 14 = h % 65536 ∧
    u16At (ilDims ohdr w h ps) 46 = ps % 65536 := by
  refine ⟨?_, ?_, ?_, ?_, ?_, ?_, ?_⟩ <;>
  · unfold u16At
    rw [byteAt_ilDims ohdr w h ps hlen _ (by omega), byteAt_ilDims ohdr w h ps hlen _ (by omega)]
    norm_num [byteAt_packU16_0, byteAt_packU16_1]
    omega

theorem u16At_buildHeaderFS_low {packf : ℚ → List Nat} {unpackf : List Nat → ℚ}
    {ohdr : List Nat} {w h : Nat} {fr : Bool} {ps : Nat} (hlen : 50 ≤ ohdr.length)
    (hpack : ∀ q, (packf q).length = 4)
    (hdiff : u16At ohdr 0 ≠ w ∨ u16At ohdr 2 ≠ h) {p : Nat} (hp : p + 2 ≤ 20) :
    u16At (buildHeaderFS packf unpackf ohdr w h fr ps) p =
      u16At (fsSize packf unpackf ohdr w h fr ps) p := by
  unfold u16At
  rw [byteAt_buildHeaderFS_low hlen hpack hdiff (by omega),
    byteAt_buildHeaderFS_low hlen hpack hdiff (by omega)]

theorem u16At_buildHeaderFS_46 {packf : ℚ → List Nat} {unpackf : List Nat → ℚ}
    {ohdr : List Nat} {w h : Nat} {fr : Bool} {ps : Nat} (hlen : 50 ≤ ohdr.length)
    (hpack : ∀ q, (packf q).length = 4)
    (hdiff : u16At ohdr 0 ≠ w ∨ u16At ohdr 2 ≠ h) :
    u16At (buildHeaderFS packf unpackf ohdr w h fr ps) 46 = ps % 65536 := by
  unfold u16At
  rw [byteAt_buildHeaderFS_hi hlen hpack hdiff (by omega),
    byteAt_buildHeaderFS_hi hlen hpack hdiff (by omega)]
  exact u16At_fsSize_46 hlen hpack

theorem u16At_buildHeaderInline_low {packf : ℚ → List Nat} {unpackf : List Nat → ℚ}
    {ohdr : List Nat} {w h ps : Nat} (hlen : 50 ≤ ohdr.length)
    (hdiff : u16At ohdr 0 ≠ w ∨ u16At ohdr 2 ≠ h) {p : Nat} (hp : p + 2 ≤ 20) :
    u16At (buildHeaderInline packf unpackf ohdr w h ps) p = u16At (ilDims ohdr w h ps) p := by
  unfold u16At
  rw [byteAt_buildHeaderInline_low hlen hdiff (by omega),
    byteAt_buildHeaderInline_low hlen hdiff (by omega)]

theorem u16At_buildHeaderInline_46 {packf : ℚ → List Nat} {unpackf : List Nat → ℚ}
    {ohdr : List Nat} {w h ps : Nat} (hlen : 50 ≤ ohdr.length)
    (hdiff : u16At ohdr 0 ≠ w ∨ u16At ohdr 2 ≠ h) :
    u16At (buildHeaderInline packf unpackf ohdr w h ps) 46 =
      u16At (ilDims ohdr w h ps) 46 := by
  unfold u16At
  rw [byteAt_buildHeaderInline_hi hlen hdiff (by omega),
    byteAt_buildHeaderInline_hi hlen hdiff (by omega)]

theorem encode_some_eq (packf : ℚ → List Nat) (unpackf : List Nat → ℚ)
    (compress9 : List Nat → List Nat) (resizeBytes : Nat → Nat → List Nat)
    (img : PILImage) (ohdr : List Nat) (force : Option (Nat × Nat))
    (hs : ¬ 65535 < (forcedPixels resizeBytes img force).length)
    (hh : 50 ≤ ohdr.length) :
    encode_chowdren_image packf unpackf compress9 resizeBytes img (some ohdr) force =
      .ok (buildHeaderFS packf unpackf ohdr (forcedDims img force).1
          (forcedDims img force).2 force.isSome
          (forcedPixels resizeBytes img force).length ++
        compress9 (forcedPixels resizeBytes img force)) := by
  unfold encode_chowdren_image
  rw [if_neg hs]
  dsimp only
  rw [if_pos hh]

theorem encode_inline_eq (packf : ℚ → List Nat) (unpackf : List Nat → ℚ)
    (compress : Nat → List Nat → List Nat) (img : PILImage) (ohdr : List Nat)
    (hs : ¬ 65535 < img.bytes.length) (hh : ¬ ohdr.length < 50) :
    encode_chowdren_image_inline packf unpackf compress img ohdr =
      .ok (buildHeaderInline packf unpackf ohdr img.width img.height img.bytes.length ++
        (if (compress 9 img.bytes).length < (compress 6 img.bytes).length then
          compress 9 img.bytes else compress 6 img.bytes)) := by
  unfold encode_chowdren_image_inline
  rw [if_neg hs]
  dsimp only
  rw [if_neg hh]

theorem byteAt_slice {l : List Nat} {a b j : Nat} (hj : j < b - a) :
    byteAt (slice l a b) j = byteAt l (a + j) := by
  unfold slice
  rw [byteAt_take hj, byteAt_drop]

theorem byteAt_fsDims_hi {ohdr : List Nat} {w h : Nat} (hlen : 50 ≤ ohdr.length)
    {j : Nat} (h16 : 16 ≤ j) (hj : j < 50) :
    byteAt (fsDims ohdr w h) j = byteAt ohdr j := by
  rw [byteAt_fsDims ohdr w h hlen j hj]
  simp [show ¬ j < 2 by omega, show ¬ j < 4 by omega, show ¬ j < 6 by omega,
    show ¬ j < 8 by omega, show ¬ j < 12 by omega, show ¬ j < 14 by omega,
    show ¬ j < 16 by omega]

theorem byteAt_ilDims_mid {ohdr : List Nat} {w h ps : Nat} (hlen : 50 ≤ ohdr.length)
    {j : Nat} (h16 : 16 ≤ j) (hj : j < 46) :
    byteAt (ilDims ohdr w h ps) j = byteAt ohdr j := by
  rw [byteAt_ilDims ohdr w h ps hlen j (by omega)]
  simp [show ¬ j < 2 by omega, show ¬ j < 4 by omega, show ¬ j < 6 by omega,
    show ¬ j < 8 by omega, show ¬ j < 12 by omega, show ¬ j < 14 by omega,
    show ¬ j < 16 by omega, show j < 46 by omega]

/-! ## Claim C2 -/

/-- C2: for both encoders, encoding over a 50-byte source header whose
stored dimensions differ from the new ones yields a blob whose bytes 20-45
are all zero, whose three width copies (bytes 0-1, 4-5, 12-13) and three
height copies (bytes 2-3, 6-7, 14-15) hold the new dimensions, and whose
bytes 46-47 hold `width * height * 4` (the pixel-buffer length of an RGBA
image, by the PIL `tobytes` invariant taken as a hypothesis). -/
theorem C2_metadata_zeroed_on_resize :
    (∀ (packf : ℚ → List Nat) (unpackf : List Nat → ℚ)
      (compress9 : List Nat → List Nat) (resizeBytes : Nat → Nat → List Nat)
      (img : PILImage) (ohdr : List Nat) (force : Option (Nat × Nat)) (blob : List Nat),
      ohdr.length = 50 →
      (∀ q, (packf q).length = 4) →
      (u16At ohdr 0 ≠ (forcedDims img force).1 ∨ u16At ohdr 2 ≠ (forcedDims img force).2) →
      (forcedPixels resizeBytes img force).length =
        (forcedDims img force).1 * (forcedDims img force).2 * 4 →
      (forcedDims img force).1 < 65536 → (forcedDims img force).2 < 65536 →
      encode_chowdren_image packf unpackf compress9 resizeBytes img (some ohdr) force
        = .ok blob →
      ((∀ j, 20 ≤ j → j < 46 → byteAt blob j = 0) ∧
        u16At blob 0 = (forcedDims img force).1 ∧
        u16At blob 4 = (forcedDims img force).1 ∧
        u16At blob 12 = (forcedDims img force).1 ∧
        u16At blob 2 = (forcedDims img force).2 ∧
        u16At blob 6 = (forcedDims img force).2 ∧
        u16At blob 14 = (forcedDims img force).2 ∧
        u16At blob 46 = (forcedDims img force).1 * (forcedDims img force).2 * 4)) ∧
    (∀ (packf : ℚ → List Nat) (unpackf : List Nat → ℚ)
      (compress : Nat → List Nat → List Nat) (img2 : PILImage) (ohdr2 blob2 : List Nat),
      ohdr2.length = 50 →
      (∀ q, (packf q).length = 4) →
      (u16At ohdr2 0 ≠ img2.width ∨ u16At ohdr2 2 ≠ img2.height) →
      img2.bytes.length = img2.width * img2.height * 4 →
      img2.width < 65536 → img2.height < 65536 →
      encode_chowdren_image_inline packf unpackf compress img2 ohdr2 = .ok blob2 →
      ((∀ j, 20 ≤ j → j < 46 → byteAt blob2 j = 0) ∧
        u16At blob2 0 = img2.width ∧ u16At blob2 4 = img2.width ∧
        u16At blob2 12 = img2.width ∧ u16At blob2 2 = img2.height ∧
        u16At blob2 6 = img2.height ∧ u16At blob2 14 = img2.height ∧
        u16At blob2 46 = img2.width * img2.height * 4)) := by
  constructor
  · intro packf unpackf compress9 resizeBytes img ohdr force blob hlen50 hpack hdiff
      hpix hw hh2 hok
    have hlen : 50 ≤ ohdr.length := by omega
    have hs : ¬ 65535 < (forcedPixels resizeBytes img force).length := by
      intro hgt
      unfold encode_chowdren_image at hok
      rw [if_pos hgt] at hok
      exact Except.noConfusion hok
    rw [encode_some_eq packf unpackf compress9 resizeBytes img ohdr force hs hlen] at hok
    injection hok with hok2
    subst hok2
    have hH := @length_buildHeaderFS packf unpackf ohdr (forcedDims img force).1
      (forcedDims img force).2 force.isSome
      (forcedPixels resizeBytes img force).length hlen hpack
    refine ⟨?_, ?_, ?_, ?_, ?_, ?_, ?_, ?_⟩
    · intro j h20 h46
      rw [byteAt_append_left (by rw [hH]; omega)]
      exact byteAt_buildHeaderFS_zeroed hlen hpack hdiff h20 h46
    · rw [u16At_append_left (by rw [hH]; omega),
        u16At_buildHeaderFS_low hlen hpack hdiff (by omega),
        (u16At_fsSize_dims hlen hpack).1]
      exact Nat.mod_eq_of_lt hw
    · rw [u16At_append_left (by rw [hH]; omega),
        u16At_buildHeaderFS_low hlen hpack hdiff (by omega),
        (u16At_fsSize_dims hlen hpack).2.1]
      exact Nat.mod_eq_of_lt hw
    · rw [u16At_append_left (by rw [hH]; omega),
        u16At_buildHeaderFS_low hlen hpack hdiff (by omega),
        (u16At_fsSize_dims hlen hpack).2.2.1]
      exact Nat.mod_eq_of_lt hw
    · rw [u16At_append_left (by rw [hH]; omega),
        u16At_buildHeaderFS_low hlen hpack hdiff (by omega),
        (u16At_fsSize_dims hlen hpack).2.2.2.1]
      exact Nat.mod_eq_of_lt hh2
    · rw [u16At_append_left (by rw [hH]; omega),
        u16At_buildHeaderFS_low hlen hpack hdiff (by omega),
        (u16At_fsSize_dims hlen hpack).2.2.2.2.1]
      exact Nat.mod_eq_of_lt hh2
    · rw [u16At_append_left (by rw [hH]; omega),
        u16At_buildHeaderFS_low hlen hpack hdiff (by omega),
        (u16At_fsSize_dims hlen hpack).2.2.2.2.2]
      exact Nat.mod_eq_of_lt hh2
    · rw [u16At_append_left (by rw [hH]; omega),
        u16At_buildHeaderFS_46 hlen hpack hdiff, hpix]
      exact Nat.mod_eq_of_lt (by omega)
  · intro packf unpackf compress img2 ohdr2 blob2 hlen50 hpack hdiff hpix hw hh2 hok
    have hlen : 50 ≤ ohdr2.length := by omega
    have hs : ¬ 65535 < img2.bytes.length := by
      intro hgt
      unfold encode_chowdren_image_inline at hok
      rw [if_pos hgt] at hok
      exact Except.noConfusion hok
    rw [encode_inline_eq packf unpackf compress img2 ohdr2 hs (by omega)] at hok
    injection hok with hok2
    subst hok2
    have hH := @length_buildHeaderInline packf unpackf ohdr2 img2.width img2.height
      img2.bytes.length hlen hpack
    have hI := u16At_ilDims_dims ohdr2 img2.width img2.height img2.bytes.length hlen
    refine ⟨?_, ?_, ?_, ?_, ?_, ?_, ?_, ?_⟩
    · intro j h20 h46
      rw [byteAt_append_left (by rw [hH]; omega)]
      exact byteAt_buildHeaderInline_zeroed hlen hdiff h20 h46
    · rw [u16At_append_left (by rw [hH]; omega),
        @u16At_buildHeaderInline_low packf _ _ _ _ _ hlen hdiff _ (by omega), hI.1]
      exact Nat.mod_eq_of_lt hw
    · rw [u16At_append_left (by rw [hH]; omega),
        @u16At_buildHeaderInline_low packf _ _ _ _ _ hlen hdiff _ (by omega), hI.2.1]
      exact Nat.mod_eq_of_lt hw
    · rw [u16At_append_left (by rw [hH]; omega),
        @u16At_buildHeaderInline_low packf _ _ _ _ _ hlen hdiff _ (by omega), hI.2.2.1]
      exact Nat.mod_eq_of_lt hw
    · rw [u16At_append_left (by rw [hH]; omega),
        @u16At_buildHeaderInline_low packf _ _ _ _ _ hlen hdiff _ (by omega), hI.2.2.2.1]
      exact Nat.mod_eq_of_lt hh2
    · rw [u16At_append_left (by rw [hH]; omega),
        @u16At_buildHeaderInline_low packf _ _ _ _ _ hlen hdiff _ (by omega), hI.2.2.2.2.1]
      exact Nat.mod_eq_of_lt hh2
    · rw [u16At_append_left (by rw [hH]; omega),
        @u16At_buildHeaderInline_low packf _ _ _ _ _ hlen hdiff _ (by omega), hI.2.2.2.2.2.1]
      exact Nat.mod_eq_of_lt hh2
    · rw [u16At_append_left (by rw [hH]; omega),
        @u16At_buildHeaderInline_46 packf unpackf _ _ _ _ hlen hdiff,
        hI.2.2.2.2.2.2, hpix]
      exact Nat.mod_eq_of_lt (by omega)

/-- C2 (witness): both encoders evaluated on the 1x1 image over the 2x2
source header: bytes of the metadata region are zero, the dimension copies
read 1, and the size field reads 4. -/
theorem C2_witness :
    (byteAt blobOut9 20 = 0 ∧ byteAt blobOut9 45 = 0 ∧ u16At blobOut9 0 = 1 ∧
      u16At blobOut9 14 = 1 ∧ u16At blobOut9 46 = 4) ∧
    (byteAt blobOut6 20 = 0 ∧ byteAt blobOut6 45 = 0 ∧ u16At blobOut6 0 = 1 ∧
      u16At blobOut6 14 = 1 ∧ u16At blobOut6 46 = 4) := by
  have h1 := C2_metadata_zeroed_on_resize.1 packfEx unpackfEx compress9ex resizeEx
    img1 ohdrDiff none blobOut9 (by decide)
    (by intro q; unfold packfEx; split <;> rfl)
    (by decide) (by decide) (by decide) (by decide) (by rfl)
  have h2 := C2_metadata_zeroed_on_resize.2 packfEx unpackfEx compressEx
    img1 ohdrDiff blobOut6 (by decide)
    (by intro q; unfold packfEx; split <;> rfl)
    (by decide) (by decide) (by decide) (by decide) (by rfl)
  exact ⟨⟨h1.1 20 (by omega) (by omega), h1.1 45 (by omega) (by omega),
      h1.2.1, h1.2.2.2.2.2.2.1, h1.2.2.2.2.2.2.2⟩,
    ⟨h2.1 20 (by omega) (by omega), h2.1 45 (by omega) (by omega),
      h2.2.1, h2.2.2.2.2.2.2.1, h2.2.2.2.2.2.2.2⟩⟩

/-! ## Claim C8 -/

/-- C8: for both encoders, encoding over a 50-byte source header whose
stored dimensions (both positive) equal the new dimensions leaves bytes
20-45 byte-for-byte equal to the source header (in particular they are not
zeroed), and each hotspot component of the output equals the packing of
`old_hotspot * (new_dim / old_dim)` per axis (float arithmetic modelled
exactly over ℚ; the float pack-unpack round trip on the source hotspot
bytes is a hypothesis true of IEEE-754 singles away from NaN payloads). -/
theorem C8_hotspot_rescaled_when_dims_unchanged :
    (∀ (packf : ℚ → List Nat) (unpackf : List Nat → ℚ)
      (compress9 : List Nat → List Nat) (resizeBytes : Nat → Nat → List Nat)
      (img : PILImage) (ohdr : List Nat) (force : Option (Nat × Nat)) (blob : List Nat),
      ohdr.length = 50 →
      (∀ q, (packf q).length = 4) →
      u16At ohdr 0 = (forcedDims img force).1 →
      u16At ohdr 2 = (forcedDims img force).2 →
      0 < u16At ohdr 0 → 0 < u16At ohdr 2 →
      packf (unpackf (slice ohdr 16 20)) = slice ohdr 16 20 →
      packf (unpackf (slice ohdr 20 24)) = slice ohdr 20 24 →
      encode_chowdren_image packf unpackf compress9 resizeBytes img (some ohdr) force
        = .ok blob →
      ((∀ j, 20 ≤ j → j < 46 → byteAt blob j = byteAt ohdr j) ∧
        (∀ j, j < 4 → byteAt blob (16 + j) =
          byteAt (packf (unpackf (slice ohdr 16 20) *
            (((forcedDims img force).1 : ℚ) / (u16At ohdr 0 : ℚ)))) j) ∧
        (∀ j, j < 4 → byteAt blob (20 + j) =
          byteAt (packf (unpackf (slice ohdr 20 24) *
            (((forcedDims img force).2 : ℚ) / (u16At ohdr 2 : ℚ)))) j))) ∧
    (∀ (packf : ℚ → List Nat) (unpackf : List Nat → ℚ)
      (compress : Nat → List Nat → List Nat) (img2 : PILImage) (ohdr2 blob2 : List Nat),
      ohdr2.length = 50 →
      (∀ q, (packf q).length = 4) →
      u16At ohdr2 0 = img2.width →
      u16At ohdr2 2 = img2.height →
      0 < u16At ohdr2 0 → 0 < u16At ohdr2 2 →
      packf (unpackf (slice ohdr2 16 20)) = slice ohdr2 16 20 →
      packf (unpackf (slice ohdr2 20 24)) = slice ohdr2 20 24 →
      encode_chowdren_image_inline packf unpackf compress img2 ohdr2 = .ok blob2 →
      ((∀ j, 20 ≤ j → j < 46 → byteAt blob2 j = byteAt ohdr2 j) ∧
        (∀ j, j < 4 → byteAt blob2 (16 + j) =
          byteAt (packf (unpackf (slice ohdr2 16 20) *
            ((img2.width : ℚ) / (u16At ohdr2 0 : ℚ)))) j) ∧
        (∀ j, j < 4 → byteAt blob2 (20 + j) =
          byteAt (packf (unpackf (slice ohdr2 20 24) *
            ((img2.height : ℚ) / (u16At ohdr2 2 : ℚ)))) j))) := by
  constructor
  · intro packf unpackf compress9 resizeBytes img ohdr force blob hlen50 hpack heqw heqh
      hw0 hh0 hrt16 hrt20 hok
    have hlen : 50 ≤ ohdr.length := by omega
    have hs : ¬ 65535 < (forcedPixels resizeBytes img force).length := by
      intro hgt
      unfold encode_chowdren_image at hok
      rw [if_pos hgt] at hok
      exact Except.noConfusion hok
    rw [encode_some_eq packf unpackf compress9 resizeBytes img ohdr force hs hlen] at hok
    injection hok with hok2
    subst hok2
    have hH := @length_buildHeaderFS packf unpackf ohdr (forcedDims img force).1
      (forcedDims img force).2 force.isSome
      (forcedPixels resizeBytes img force).length hlen hpack
    have hndiff : ¬ (u16At ohdr 0 ≠ (forcedDims img force).1 ∨
        u16At ohdr 2 ≠ (forcedDims img force).2) := by omega
    have hBeq := @buildHeaderFS_of_eq packf unpackf _ _ _ force.isSome
      (forcedPixels resizeBytes img force).length hndiff
    have hcw : (u16At ohdr 0 : ℚ) ≠ 0 := Nat.cast_ne_zero.mpr (by omega)
    have hch : (u16At ohdr 2 : ℚ) ≠ 0 := Nat.cast_ne_zero.mpr (by omega)
    have hr1 : ((forcedDims img force).1 : ℚ) / (u16At ohdr 0 : ℚ) = 1 := by
      rw [← heqw]
      exact div_self hcw
    have hr2 : ((forcedDims img force).2 : ℚ) / (u16At ohdr 2 : ℚ) = 1 := by
      rw [← heqh]
      exact div_self hch
    cases force with
    | none =>
      have hnc : ¬ ((none : Option (Nat × Nat)).isSome = true ∧
          0 < u16At ohdr 0 ∧ 0 < u16At ohdr 2) := by simp
      have hHot := @fsHot_of_not packf unpackf _
        (forcedDims img (none : Option (Nat × Nat))).1
        (forcedDims img (none : Option (Nat × Nat))).2 _ hnc
      refine ⟨?_, ?_, ?_⟩
      · intro j h20 h46
        rw [byteAt_append_left (by rw [hH]; omega), hBeq,
          byteAt_fsSize_lt46 hlen hpack (by omega), hHot,
          byteAt_fsDims_hi hlen (by omega) (by omega)]
      · intro j hj
        rw [byteAt_append_left (by rw [hH]; omega), hBeq,
          byteAt_fsSize_lt46 hlen hpack (by omega), hHot,
          byteAt_fsDims_hi hlen (by omega) (by omega), hr1, mul_one, hrt16,
          byteAt_slice (by omega)]
      · intro j hj
        rw [byteAt_append_left (by rw [hH]; omega), hBeq,
          byteAt_fsSize_lt46 hlen hpack (by omega), hHot,
          byteAt_fsDims_hi hlen (by omega) (by omega), hr2, mul_one, hrt20,
          byteAt_slice (by omega)]
    | some wh2 =>
      have hc : (some wh2).isSome = true ∧ 0 < u16At ohdr 0 ∧ 0 < u16At ohdr 2 :=
        ⟨rfl, hw0, hh0⟩
      have hx : fsNx packf unpackf ohdr (forcedDims img (some wh2)).1 =
          packf (unpackf (slice ohdr 16 20) *
            (((forcedDims img (some wh2)).1 : ℚ) / (u16At ohdr 0 : ℚ))) := by
        unfold fsNx
        congr 1
        ring
      have hy : fsNy packf unpackf ohdr (forcedDims img (some wh2)).2 =
          packf (unpackf (slice ohdr 20 24) *
            (((forcedDims img (some wh2)).2 : ℚ) / (u16At ohdr 2 : ℚ))) := by
        unfold fsNy
        congr 1
        ring
      refine ⟨?_, ?_, ?_⟩
      · intro j h20 h46
        rw [byteAt_append_left (by rw [hH]; omega), hBeq,
          byteAt_fsSize_lt46 hlen hpack (by omega)]
        rcases Nat.lt_or_ge j 24 with hj24 | hj24
        · have e : j = 20 + (j - 20) := by omega
          rw [e, byteAt_fsHot_y hlen hpack hc (by omega), hy, hr2, mul_one, hrt20,
            byteAt_slice (by omega)]
        · rw [byteAt_fsHot_hi hlen hpack (by omega),
            byteAt_fsDims_hi hlen (by omega) (by omega)]
      · intro j hj
        rw [byteAt_append_left (by rw [hH]; omega), hBeq,
          byteAt_fsSize_lt46 hlen hpack (by omega),
          byteAt_fsHot_x hlen hpack hc (by omega), hx]
      · intro j hj
        rw [byteAt_append_left (by rw [hH]; omega), hBeq,
          byteAt_fsSize_lt46 hlen hpack (by omega),
          byteAt_fsHot_y hlen hpack hc (by omega), hy]
  · intro packf unpackf compress img2 ohdr2 blob2 hlen50 hpack heqw heqh hw0 hh0
      hrt16 hrt20 hok
    have hlen : 50 ≤ ohdr2.length := by omega
    have hs : ¬ 65535 < img2.bytes.length := by
      intro hgt
      unfold encode_chowdren_image_inline at hok
      rw [if_pos hgt] at hok
      exact Except.noConfusion hok
    rw [encode_inline_eq packf unpackf compress img2 ohdr2 hs (by omega)] at hok
    injection hok with hok2
    subst hok2
    have hH := @length_buildHeaderInline packf unpackf ohdr2 img2.width img2.height
      img2.bytes.length hlen hpack
    have hndiff : ¬ (u16At ohdr2 0 ≠ img2.width ∨ u16At ohdr2 2 ≠ img2.height) := by omega
    have hpos : 0 < u16At ohdr2 0 ∧ 0 < u16At ohdr2 2 := ⟨hw0, hh0⟩
    have hcw : (u16At ohdr2 0 : ℚ) ≠ 0 := Nat.cast_ne_zero.mpr (by omega)
    have hch : (u16At ohdr2 2 : ℚ) ≠ 0 := Nat.cast_ne_zero.mpr (by omega)
    have hx : ilNx packf unpackf ohdr2 img2.width =
        packf (unpackf (slice ohdr2 16 20) *
          ((img2.width : ℚ) / (u16At ohdr2 0 : ℚ))) := by
      unfold ilNx
      congr 1
      ring
    have hy : ilNy packf unpackf ohdr2 img2.height =
        packf (unpackf (slice ohdr2 20 24) *
          ((img2.height : ℚ) / (u16At ohdr2 2 : ℚ))) := by
      unfold ilNy
      congr 1
      ring
    have hr1 : (img2.width : ℚ) / (u16At ohdr2 0 : ℚ) = 1 := by
      rw [← heqw]
      exact div_self hcw
    have hr2 : (img2.height : ℚ) / (u16At ohdr2 2 : ℚ) = 1 := by
      rw [← heqh]
      exact div_self hch
    refine ⟨?_, ?_, ?_⟩
    · intro j h20 h46
      rw [byteAt_append_left (by rw [hH]; omega)]
      rcases Nat.lt_or_ge j 24 with hj24 | hj24
      · have e : j = 20 + (j - 20) := by omega
        rw [e, byteAt_buildHeaderInline_eq_pos_y hlen hpack hndiff hpos (by omega),
          hy, hr2, mul_one, hrt20, byteAt_slice (by omega)]
      · rw [byteAt_buildHeaderInline_eq_pos_rest hlen hpack hndiff hpos (by omega),
          byteAt_ilDims_mid hlen (by omega) (by omega)]
    · intro j hj
      rw [byteAt_append_left (by rw [hH]; omega),
        byteAt_buildHeaderInline_eq_pos_x hlen hpack hndiff hpos (by omega), hx]
    · intro j hj
      rw [byteAt_append_left (by rw [hH]; omega),
        byteAt_buildHeaderInline_eq_pos_y hlen hpack hndiff hpos (by omega), hy]

/-- C8 (witness): both encoders evaluated on the 1x1 image over the 1x1
source header: bytes of the metadata region survive unchanged and the
hotspot bytes equal the packed rescaled hotspot. -/
theorem C8_witness :
    (byteAt blobOut9 20 = byteAt ohdrEq 20 ∧ byteAt blobOut9 45 = byteAt ohdrEq 45 ∧
      byteAt blobOut9 16 =
        byteAt (packfEx (unpackfEx (slice ohdrEq 16 20) *
          (((forcedDims img1 none).1 : ℚ) / (u16At ohdrEq 0 : ℚ)))) 0) ∧
    (byteAt blobOut6 20 = byteAt ohdrEq 20 ∧ byteAt blobOut6 45 = byteAt ohdrEq 45 ∧
      byteAt blobOut6 16 =
        byteAt (packfEx (unpackfEx (slice ohdrEq 16 20) *
          ((img1.width : ℚ) / (u16At ohdrEq 0 : ℚ)))) 0) := by
  have hpk : ∀ q, (packfEx q).length = 4 := by
    intro q
    unfold packfEx
    split <;> rfl
  have h1 := C8_hotspot_rescaled_when_dims_unchanged.1 packfEx unpackfEx compress9ex
    resizeEx img1 ohdrEq none blobOut9 (by decide) hpk (by decide) (by decide)
    (by decide) (by decide) (by decide) (by decide) (by rfl)
  have hsl16 : slice ohdrEq 16 20 = [0, 0, 0, 0] := by decide
  have hx0 : ilNx packfEx unpackfEx ohdrEq img1.width = [0, 0, 0, 0] := by
    unfold ilNx
    rw [hsl16, show unpackfEx [0, 0, 0, 0] = 0 from by decide]
    unfold packfEx
    rw [if_pos (by norm_num)]
  have hy0 : ilNy packfEx unpackfEx ohdrEq img1.height = [0, 0, 0, 0] := by
    unfold ilNy
    rw [show slice ohdrEq 20 24 = [0, 0, 0, 0] from by decide,
      show unpackfEx [0, 0, 0, 0] = 0 from by decide]
    unfold packfEx
    rw [if_pos (by norm_num)]
  have hbi : buildHeaderInline packfEx unpackfEx ohdrEq img1.width img1.height
      img1.bytes.length = hdrOut1 := by
    rw [buildHeaderInline_eq_ite, if_neg (by decide), if_pos (by decide), hx0, hy0]
    decide
  have hok2 : encode_chowdren_image_inline packfEx unpackfEx compressEx img1 ohdrEq
      = .ok blobOut6 := by
    rw [encode_inline_eq packfEx unpackfEx compressEx img1 ohdrEq (by decide) (by decide),
      hbi]
    rw [show (if (compressEx 9 img1.bytes).length < (compressEx 6 img1.bytes).length then
        compressEx 9 img1.bytes else compressEx 6 img1.bytes) = zlib6z4 from by decide]
    rfl
  have h2 := C8_hotspot_rescaled_when_dims_unchanged.2 packfEx unpackfEx compressEx
    img1 ohdrEq blobOut6 (by decide) hpk (by decide) (by decide)
    (by decide) (by decide) (by decide) (by decide) hok2
  exact ⟨⟨h1.1 20 (by omega) (by omega), h1.1 45 (by omega) (by omega),
      h1.2.1 0 (by omega)⟩,
    ⟨h2.1 20 (by omega) (by omega), h2.1 45 (by omega) (by omega),
      h2.2.1 0 (by omega)⟩⟩

/-! ## Claim C9 -/

/-- C9: when `encode_chowdren_image` is given a source header together with
forced dimensions that differ from the stored dimensions (both stored
dimensions positive), the output's bytes 16-19 hold the packed hotspot x
rescaled by `new_width / old_width`, while bytes 20-23 — where the rescaled
hotspot y was written before the metadata region was zeroed — come out all
zero: the rescaled hotspot survives on the x axis only. -/
theorem C9_hotspot_y_lost_on_forced_resize
    (packf : ℚ → List Nat) (unpackf : List Nat → ℚ) (compress9 : List Nat → List Nat)
    (resizeBytes : Nat → Nat → List Nat) (img : PILImage) (ohdr : List Nat)
    (w2 h2 : Nat) (blob : List Nat)
    (hlen : 50 ≤ ohdr.length)
    (hpack : ∀ q, (packf q).length = 4)
    (hdiff : u16At ohdr 0 ≠ w2 ∨ u16At ohdr 2 ≠ h2)
    (hw0 : 0 < u16At ohdr 0) (hh0 : 0 < u16At ohdr 2)
    (hok : encode_chowdren_image packf unpackf compress9 resizeBytes img (some ohdr)
      (some (w2, h2)) = .ok blob) :
    (∀ j, j < 4 → byteAt blob (16 + j) =
      byteAt (packf (unpackf (slice ohdr 16 20) * ((w2 : ℚ) / (u16At ohdr 0 : ℚ)))) j) ∧
    (∀ j, j < 4 → byteAt blob (20 + j) = 0) := by
  have hs : ¬ 65535 < (forcedPixels resizeBytes img (some (w2, h2))).length := by
    intro hgt
    unfold encode_chowdren_image at hok
    rw [if_pos hgt] at hok
    exact Except.noConfusion hok
  rw [encode_some_eq packf unpackf compress9 resizeBytes img ohdr (some (w2, h2))
    hs hlen] at hok
  injection hok with hok2
  subst hok2
  have hfd1 : (forcedDims img (some (w2, h2))).1 = w2 := rfl
  have hfd2 : (forcedDims img (some (w2, h2))).2 = h2 := rfl
  rw [hfd1, hfd2]
  have hH := @length_buildHeaderFS packf unpackf ohdr w2 h2 (some (w2, h2)).isSome
    (forcedPixels resizeBytes img (some (w2, h2))).length hlen hpack
  have hc : (some (w2, h2)).isSome = true ∧ 0 < u16At ohdr 0 ∧ 0 < u16At ohdr 2 :=
    ⟨rfl, hw0, hh0⟩
  constructor
  · intro j hj
    rw [byteAt_append_left (by rw [hH]; omega),
      byteAt_buildHeaderFS_low hlen hpack hdiff (by omega),
      byteAt_fsSize_lt46 hlen hpack (by omega),
      byteAt_fsHot_x hlen hpack hc hj,
      show fsNx packf unpackf ohdr w2 =
        packf (unpackf (slice ohdr 16 20) * ((w2 : ℚ) / (u16At ohdr 0 : ℚ))) from by
          unfold fsNx; congr 1; ring]
  · intro j hj
    rw [byteAt_append_left (by rw [hH]; omega)]
    exact byteAt_buildHeaderFS_zeroed hlen hpack hdiff (by omega) (by omega)

/-- C9 (witness): encoding the 1x1 image over the 2x2 source header with
forced dimensions 1x1 yields the packed rescaled hotspot x at bytes 16-19
and zero bytes at 20-23. -/
theorem C9_witness :
    byteAt blobOut9 (16 + 0) =
      byteAt (packfEx (unpackfEx (slice ohdrDiff 16 20) *
        (((1 : Nat) : ℚ) / (u16At ohdrDiff 0 : ℚ)))) 0 ∧
    byteAt blobOut9 (20 + 0) = 0 ∧ byteAt blobOut9 (20 + 3) = 0 := by
  have hfsx : fsNx packfEx unpackfEx ohdrDiff 1 = [0, 0, 0, 0] := by
    unfold fsNx
    rw [show slice ohdrDiff 16 20 = [0, 0, 0, 0] from by decide,
      show unpackfEx [0, 0, 0, 0] = 0 from by decide]
    unfold packfEx
    rw [if_pos (by norm_num)]
  have hfsy : fsNy packfEx unpackfEx ohdrDiff 1 = [0, 0, 0, 0] := by
    unfold fsNy
    rw [show slice ohdrDiff 20 24 = [0, 0, 0, 0] from by decide,
      show unpackfEx [0, 0, 0, 0] = 0 from by decide]
    unfold packfEx
    rw [if_pos (by norm_num)]
  have hbf : buildHeaderFS packfEx unpackfEx ohdrDiff 1 1 true 4 = hdrOut1 := by
    unfold buildHeaderFS
    rw [if_pos (by decide)]
    unfold fsSize
    rw [fsHot_eq_ite, if_pos (by decide), hfsx, hfsy]
    decide
  have hok9 : encode_chowdren_image packfEx unpackfEx compress9ex resizeEx img1
      (some ohdrDiff) (some (1, 1)) = .ok blobOut9 := by
    rw [encode_some_eq packfEx unpackfEx compress9ex resizeEx img1 ohdrDiff
      (some (1, 1)) (by decide) (by decide)]
    show Except.ok (buildHeaderFS packfEx unpackfEx ohdrDiff 1 1 true 4 ++
      compress9ex (List.replicate (1 * 1 * 4) 0)) = Except.ok blobOut9
    rw [hbf, show compress9ex (List.replicate (1 * 1 * 4) 0) = zlib9z4 from by decide]
    rfl
  have h := C9_hotspot_y_lost_on_forced_resize packfEx unpackfEx compress9ex resizeEx
    img1 ohdrDiff 1 1 blobOut9 (by decide)
    (by intro q; unfold packfEx; split <;> rfl)
    (by decide) (by decide) (by decide) hok9
  exact ⟨h.1 0 (by omega), h.2 0 (by omega), h.2 3 (by omega)⟩

/-! ## Claim C1 -/

theorem length_defaultHeader {packf : ℚ → List Nat} {w h ps : Nat}
    (hpack : ∀ q, (packf q).length = 4) :
    (defaultHeader packf w h ps).length = 50 := by
  unfold defaultHeader
  have l0 : (List.replicate 50 (0 : Nat)).length = 50 := by simp
  have l1 := length_setU16_50 l0 (show 0 + 2 ≤ 50 by omega) (v := w)
  have l2 := length_setU16_50 l1 (show 4 + 2 ≤ 50 by omega) (v := w)
  have l3 := length_setU16_50 l2 (show 12 + 2 ≤ 50 by omega) (v := w)
  have l4 := length_setU16_50 l3 (show 2 + 2 ≤ 50 by omega) (v := h)
  have l5 := length_setU16_50 l4 (show 6 + 2 ≤ 50 by omega) (v := h)
  have l6 := length_setU16_50 l5 (show 14 + 2 ≤ 50 by omega) (v := h)
  have l7 : (writeBytes (setU16 (setU16 (setU16 (setU16 (setU16 (setU16
      (List.replicate 50 0) 0 w) 4 w) 12 w) 2 h) 6 h) 14 h) 16
      (packf ((w : ℚ) / 2))).length = 50 := by
    rw [length_writeBytes (by rw [hpack, l6]; omega)]
    exact l6
  have l8 : (writeBytes (writeBytes (setU16 (setU16 (setU16 (setU16 (setU16 (setU16
      (List.replicate 50 0) 0 w) 4 w) 12 w) 2 h) 6 h) 14 h) 16
      (packf ((w : ℚ) / 2))) 20 (packf ((h : ℚ) / 2))).length = 50 := by
    rw [length_writeBytes (by rw [hpack, l7]; omega)]
    exact l7
  have l9 := length_setU16_50 l8 (show 24 + 2 ≤ 50 by omega) (v := 2)
  exact length_setU16_50 l9 (show 46 + 2 ≤ 50 by omega)

theorem findMarkerFrom_eq_none (data : List Nat) :
    ∀ fuel start, (∀ k, start ≤ k → k < start + fuel →
      ¬ (byteAt data k = 120 ∧ byteAt data (k + 1) = 156)) →
    findMarkerFrom data start fuel = none := by
  intro fuel
  induction fuel with
  | zero => intro start _; rfl
  | succ n ih =>
    intro start hnp
    unfold findMarkerFrom
    rw [if_neg (hnp start (Nat.le_refl _) (by omega))]
    exact ih (start + 1) (fun k hk1 hk2 => hnp k (by omega) (by omega))

theorem encode_none_eq (packf : ℚ → List Nat) (unpackf : List Nat → ℚ)
    (compress9 : List Nat → List Nat) (resizeBytes : Nat → Nat → List Nat)
    (img : PILImage) (hs : ¬ 65535 < img.bytes.length) :
    encode_chowdren_image packf unpackf compress9 resizeBytes img none none =
      .ok (defaultHeader packf img.width img.height img.bytes.length ++
        compress9 img.bytes) := by
  unfold encode_chowdren_image
  dsimp only [forcedDims, forcedPixels]
  rw [if_neg hs]

/-- Helper: the fixed encoder evaluated on the 1x1 transparent image with
no source header, with the recorded float-packing and level-9 zlib outputs,
produces exactly `blobC1`. -/
theorem encode_img1_eq :
    encode_chowdren_image packfEx unpackfEx compress9ex resizeEx img1 none none
      = .ok blobC1 := by
  rw [encode_none_eq packfEx unpackfEx compress9ex resizeEx img1 (by decide)]
  have e1 : packfEx ((img1.width : ℚ) / 2) = [0, 0, 0, 63] := by
    unfold packfEx
    rw [if_neg (by norm_num [img1])]
  have e2 : packfEx ((img1.height : ℚ) / 2) = [0, 0, 0, 63] := by
    unfold packfEx
    rw [if_neg (by norm_num [img1])]
  unfold defaultHeader
  rw [e1, e2]
  rfl

/-- C1 (counterexample): the round trip fails at the 1x1 transparent
buffer: the encoder compresses at zlib level 9, whose stream begins
`0x78 0xda`, the resulting 62-byte blob contains no `0x78 0x9c` pair, and
the decoder's marker scan therefore fails with the marker-not-found error
instead of returning `(1, 1, buffer)`. -/
theorem C1_counterexample :
    encode_chowdren_image packfEx unpackfEx compress9ex resizeEx img1 none none
      = .ok blobC1 ∧
    decode_chowdren_image inflateStored blobC1 = .error .markerNotFound :=
  ⟨encode_img1_eq, by rfl⟩

/-- C1 (amended): decoding an encoder output fails with the marker-not-found
error whenever the blob contains no `0x78 0x9c` byte pair — which is the
generic situation, because the encoder's level-9 zlib stream begins
`0x78 0xda` while the decoder scans only for the level-6 marker
`0x78 0x9c`; the claimed round trip `decode (encode buffer) = (w, h, buffer)`
therefore does not hold. -/
theorem C1_roundtrip_fails (packf : ℚ → List Nat) (unpackf : List Nat → ℚ)
    (compress9 : List Nat → List Nat) (resizeBytes : Nat → Nat → List Nat)
    (decompress : List Nat → Option (List Nat)) (img : PILImage) (blob : List Nat)
    (hpack : ∀ q, (packf q).length = 4)
    (hok : encode_chowdren_image packf unpackf compress9 resizeBytes img none none
      = .ok blob)
    (hnp : ∀ i, i + 2 ≤ blob.length →
      ¬ (byteAt blob i = 120 ∧ byteAt blob (i + 1) = 156)) :
    decode_chowdren_image decompress blob = .error .markerNotFound := by
  have hs : ¬ 65535 < img.bytes.length := by
    intro hgt
    unfold encode_chowdren_image at hok
    dsimp only [forcedDims, forcedPixels] at hok
    rw [if_pos hgt] at hok
    exact Except.noConfusion hok
  rw [encode_none_eq packf unpackf compress9 resizeBytes img hs] at hok
  rw [Except.ok.injEq] at hok
  have hok2 := hok
  have hlb : 50 ≤ blob.length := by
    rw [← hok2, List.length_append, length_defaultHeader hpack]
    omega
  have hmk := findMarkerFrom_eq_none blob (blob.length - 1) 0
    (fun k _ hk2 => hnp k (by omega))
  unfold decode_chowdren_image
  rw [if_neg (show ¬ blob.length < 4 by omega), hmk]

/-- C1 (witness): the amended theorem evaluated on the concrete 1x1
encoding. -/
theorem C1_witness :
    decode_chowdren_image inflateStored blobC1 = .error .markerNotFound :=
  C1_roundtrip_fails packfEx unpackfEx compress9ex resizeEx inflateStored img1 blobC1
    (by intro q; unfold packfEx; split <;> rfl)
    encode_img1_eq
    (fun i hi => by
      have hb : i < 61 := by
        have hl : blobC1.length = 62 := by decide
        omega
      exact (by decide :
        ∀ i < 61, ¬ (byteAt blobC1 i = 120 ∧ byteAt blobC1 (i + 1) = 156)) i hb)

/-! ## Claim C4 -/

theorem processTable_tiles (subst : Nat → Option (List Nat)) :
    ∀ (t : List (Nat × Nat)) (i c : Nat),
      tiles c (processTable subst i c t).1 (processTable subst i c t).2 = true := by
  intro t
  induction t with
  | nil => intro i c; simp [processTable, tiles]
  | cons r rest ih =>
    intro i c
    unfold processTable
    cases hs2 : subst i with
    | none => simp [tiles, ih (i + 1) (c + r.2)]
    | some d => simp [tiles, ih (i + 1) (c + d.length)]

theorem processTable_cursor_mono (subst : Nat → Option (List Nat)) :
    ∀ (t : List (Nat × Nat)) (i c : Nat), c ≤ (processTable subst i c t).2 := by
  intro t
  induction t with
  | nil => intro i c; exact Nat.le_refl c
  | cons r rest ih =>
    intro i c
    unfold processTable
    cases hs2 : subst i with
    | none => exact Nat.le_trans (by omega) (ih (i + 1) (c + r.2))
    | some d => exact Nat.le_trans (by omega) (ih (i + 1) (c + d.length))

theorem processTable_lb (subst : Nat → Option (List Nat)) :
    ∀ (t : List (Nat × Nat)) (i c : Nat) (r : Nat × Nat),
      r ∈ (processTable subst i c t).1 → c ≤ r.1 := by
  intro t
  induction t with
  | nil => intro i c r hm; simp [processTable] at hm
  | cons x rest ih =>
    intro i c r hm
    unfold processTable at hm
    cases hs2 : subst i with
    | none =>
      rw [hs2] at hm
      simp only [List.mem_cons] at hm
      rcases hm with hm | hm
      · rw [hm]
      · exact Nat.le_trans (by omega) (ih (i + 1) (c + x.2) r hm)
    | some d =>
      rw [hs2] at hm
      simp only [List.mem_cons] at hm
      rcases hm with hm | hm
      · rw [hm]
      · exact Nat.le_trans (by omega) (ih (i + 1) (c + d.length) r hm)

theorem processShaders_tiles :
    ∀ (t : List (Nat × Nat)) (c : Nat),
      shaderTiles c t (processShaders c t).1 (processShaders c t).2 = true := by
  intro t
  induction t with
  | nil => intro c; simp [processShaders, shaderTiles]
  | cons r rest ih =>
    intro c
    unfold processShaders
    by_cases hg : 0 < r.2 ∧ 0 < r.1
    · simp [hg, shaderTiles, ih (c + r.2)]
    · simp [hg, shaderTiles, ih c]

/-- C4 (amended): after a successful repack, the images, sounds and fonts
tables tile contiguous intervals starting at `metadataSize` (each record's
offset is exactly the running cursor, so the ranges are pairwise
non-overlapping and gapless in table order, and every offset is at least
`metadataSize`), and the shader table tiles the rest up to the final size
except that shader records whose original size or offset is zero are left
untouched (offset and size unchanged, cursor not advanced) — these skipped
records are the exception to the claimed `offset ≥ metadata_size`
invariant. -/
theorem C4_repack_contiguity (cfg : RepackConfig) (arch : List Nat)
    (mi ms : Nat → Option (List Nat)) (R : RepackResult)
    (hok : repack_assets cfg arch mi ms = .ok R) :
    ∃ c1 c2 c3,
      tiles (metadataSize cfg) R.imageTable c1 = true ∧
      tiles c1 R.soundTable c2 = true ∧
      tiles c2 R.fontTable c3 = true ∧
      shaderTiles c3 (read_asset_table arch cfg.shadersOff cfg.shaderCount)
        R.shaderTable R.finalSize = true ∧
      metadataSize cfg ≤ c1 ∧ c1 ≤ c2 ∧ c2 ≤ c3 ∧
      (∀ r ∈ R.imageTable, metadataSize cfg ≤ r.1) ∧
      (∀ r ∈ R.soundTable, c1 ≤ r.1) ∧
      (∀ r ∈ R.fontTable, c2 ≤ r.1) := by
  unfold repack_assets at hok
  dsimp only at hok
  split at hok
  · rw [Except.ok.injEq] at hok
    subst hok
    refine ⟨(processTable mi 0 (metadataSize cfg)
        (read_asset_table arch cfg.imagesOff cfg.imageCount)).2,
      (processTable ms 0 _ (read_asset_table arch cfg.soundsOff cfg.soundCount)).2,
      (processTable (fun _ => none) 0 _
        (read_asset_table arch cfg.fontsOff cfg.fontCount)).2,
      processTable_tiles mi _ 0 _, processTable_tiles ms _ 0 _,
      processTable_tiles (fun _ => none) _ 0 _, processShaders_tiles _ _,
      processTable_cursor_mono mi _ 0 _, processTable_cursor_mono ms _ 0 _,
      processTable_cursor_mono (fun _ => none) _ 0 _,
      fun r hr => processTable_lb mi _ 0 _ r hr,
      fun r hr => processTable_lb ms _ 0 _ r hr,
      fun r hr => processTable_lb (fun _ => none) _ 0 _ r hr⟩
  · exact Except.noConfusion hok

/-- C4 (witness): the amended contiguity theorem evaluated on a one-record
configuration whose shader record is `(0, 0)` and is therefore skipped. -/
theorem C4_witness :
    ∃ c1 c2 c3,
      tiles (metadataSize ⟨1, 1, 1, 1, 0, 8, 16, 24⟩)
        (RepackResult.mk [(32, 0)] [(32, 0)] [(32, 0)] [(0, 0)] 32).imageTable c1 = true ∧
      tiles c1 (RepackResult.mk [(32, 0)] [(32, 0)] [(32, 0)] [(0, 0)] 32).soundTable c2
        = true ∧
      tiles c2 (RepackResult.mk [(32, 0)] [(32, 0)] [(32, 0)] [(0, 0)] 32).fontTable c3
        = true ∧
      shaderTiles c3
        (read_asset_table (List.replicate 32 0) (RepackConfig.mk 1 1 1 1 0 8 16 24).shadersOff
          (RepackConfig.mk 1 1 1 1 0 8 16 24).shaderCount)
        (RepackResult.mk [(32, 0)] [(32, 0)] [(32, 0)] [(0, 0)] 32).shaderTable
        (RepackResult.mk [(32, 0)] [(32, 0)] [(32, 0)] [(0, 0)] 32).finalSize = true ∧
      metadataSize ⟨1, 1, 1, 1, 0, 8, 16, 24⟩ ≤ c1 ∧ c1 ≤ c2 ∧ c2 ≤ c3 ∧
      (∀ r ∈ (RepackResult.mk [(32, 0)] [(32, 0)] [(32, 0)] [(0, 0)] 32).imageTable,
        metadataSize ⟨1, 1, 1, 1, 0, 8, 16, 24⟩ ≤ r.1) ∧
      (∀ r ∈ (RepackResult.mk [(32, 0)] [(32, 0)] [(32, 0)] [(0, 0)] 32).soundTable,
        c1 ≤ r.1) ∧
      (∀ r ∈ (RepackResult.mk [(32, 0)] [(32, 0)] [(32, 0)] [(0, 0)] 32).fontTable,
        c2 ≤ r.1) :=
  C4_repack_contiguity ⟨1, 1, 1, 1, 0, 8, 16, 24⟩ (List.replicate 32 0) noSub noSub
    (RepackResult.mk [(32, 0)] [(32, 0)] [(32, 0)] [(0, 0)] 32) (by rfl)


theorem u32At_zero_of {file : List Nat} {p : Nat}
    (h0 : byteAt file p = 0) (h1 : byteAt file (p + 1) = 0)
    (h2 : byteAt file (p + 2) = 0) (h3 : byteAt file (p + 3) = 0) :
    u32At file p = 0 := by
  unfold u32At
  rw [h0, h1, h2, h3]

theorem read_asset_table_zeros (file : List Nat) :
    ∀ (cnt off : Nat), off + 8 * cnt ≤ file.length →
      (∀ j, j < 8 * cnt → byteAt file (off + j) = 0) →
      read_asset_table file off cnt = List.replicate cnt (0, 0) := by
  intro cnt
  induction cnt with
  | zero => intro off _ _; rfl
  | succ n ih =>
    intro off hle hz
    unfold read_asset_table
    rw [if_pos (by omega)]
    have hz0 : u32At file off = 0 := by
      refine u32At_zero_of ?_ (hz 1 (by omega)) (hz 2 (by omega)) (hz 3 (by omega))
      have := hz 0 (by omega)
      simpa using this
    have hz4 : u32At file (off + 4) = 0 := by
      refine u32At_zero_of (hz 4 (by omega)) ?_ ?_ ?_
      · rw [show off + 4 + 1 = off + 5 from by omega]
        exact hz 5 (by omega)
      · rw [show off + 4 + 2 = off + 6 from by omega]
        exact hz 6 (by omega)
      · rw [show off + 4 + 3 = off + 7 from by omega]
        exact hz 7 (by omega)
    rw [hz0, hz4, ih (off + 8) (by omega) (fun j hj => by
      have hb := hz (8 + j) (by omega)
      rwa [show off + (8 + j) = off + 8 + j from by omega] at hb)]
    rfl

theorem length_archC4 : archC4.length = 84360 := by
  unfold archC4
  rw [List.length_append, List.length_replicate, List.length_cons, List.length_replicate]

theorem byteAt_archC4_zero {j : Nat} (hj : j < 84340) : byteAt archC4 j = 0 := by
  unfold archC4
  rw [byteAt_append_left (by rw [List.length_replicate]; omega), byteAt_replicate,
    if_pos hj]

theorem byteAt_archC4_tail {j : Nat} (h1 : 84341 ≤ j) (h2 : j < 84360) :
    byteAt archC4 j = 0 := by
  unfold archC4
  rw [byteAt_append_right (by rw [List.length_replicate]; omega)]
  obtain ⟨m, hm⟩ : ∃ m, j - (List.replicate 84340 (0 : Nat)).length = m + 1 :=
    ⟨j - 84341, by rw [List.length_replicate]; omega⟩
  rw [hm]
  show byteAt (List.replicate 19 0) m = 0
  rw [byteAt_replicate]
  rw [List.length_replicate] at hm
  rw [if_pos (show m < 19 from by omega)]

theorem byteAt_archC4_5 : byteAt archC4 84340 = 5 := by
  unfold archC4
  rw [byteAt_append_right (by rw [List.length_replicate])]
  rw [List.length_replicate, show (84340 : Nat) - 84340 = 0 from by norm_num]
  rfl

theorem u32At_five_of {file : List Nat} {p : Nat}
    (h0 : byteAt file p = 5) (h1 : byteAt file (p + 1) = 0)
    (h2 : byteAt file (p + 2) = 0) (h3 : byteAt file (p + 3) = 0) :
    u32At file p = 5 := by
  unfold u32At
  rw [h0, h1, h2, h3]

theorem read_asset_table_cons (file : List Nat) (off n : Nat) (h : off + 8 ≤ file.length) :
    read_asset_table file off (n + 1) =
      (u32At file off, u32At file (off + 4)) :: read_asset_table file (off + 8) n := by
  show (if off + 8 ≤ file.length then
      (u32At file off, u32At file (off + 4)) :: read_asset_table file (off + 8) n
    else ([] : List (Nat × Nat))) = _
  rw [if_pos h]

theorem read_shaders_archC4 : read_asset_table archC4 84336 3 = [(0, 5), (0, 0), (0, 0)] := by
  have hz36 : u32At archC4 84336 = 0 :=
    u32At_zero_of (byteAt_archC4_zero (by omega)) (byteAt_archC4_zero (by omega))
      (byteAt_archC4_zero (by omega)) (byteAt_archC4_zero (by omega))
  have h40 : u32At archC4 84340 = 5 :=
    u32At_five_of byteAt_archC4_5 (byteAt_archC4_tail (by omega) (by omega))
      (byteAt_archC4_tail (by omega) (by omega)) (byteAt_archC4_tail (by omega) (by omega))
  have hz44 : u32At archC4 84344 = 0 :=
    u32At_zero_of (byteAt_archC4_tail (by omega) (by omega))
      (byteAt_archC4_tail (by omega) (by omega)) (byteAt_archC4_tail (by omega) (by omega))
      (byteAt_archC4_tail (by omega) (by omega))
  have hz48 : u32At archC4 84348 = 0 :=
    u32At_zero_of (byteAt_archC4_tail (by omega) (by omega))
      (byteAt_archC4_tail (by omega) (by omega)) (byteAt_archC4_tail (by omega) (by omega))
      (byteAt_archC4_tail (by omega) (by omega))
  have hz52 : u32At archC4 84352 = 0 :=
    u32At_zero_of (byteAt_archC4_tail (by omega) (by omega))
      (byteAt_archC4_tail (by omega) (by omega)) (byteAt_archC4_tail (by omega) (by omega))
      (byteAt_archC4_tail (by omega) (by omega))
  have hz56 : u32At archC4 84356 = 0 :=
    u32At_zero_of (byteAt_archC4_tail (by omega) (by omega))
      (byteAt_archC4_tail (by omega) (by omega)) (byteAt_archC4_tail (by omega) (by omega))
      (byteAt_archC4_tail (by omega) (by omega))
  rw [show (3 : Nat) = 2 + 1 from rfl,
    read_asset_table_cons archC4 84336 2 (by rw [length_archC4]; omega),
    show (84336 : Nat) + 8 = 84344 from rfl, show (84336 : Nat) + 4 = 84340 from rfl,
    show (2 : Nat) = 1 + 1 from rfl,
    read_asset_table_cons archC4 84344 1 (by rw [length_archC4]; omega),
    show (84344 : Nat) + 8 = 84352 from rfl, show (84344 : Nat) + 4 = 84348 from rfl,
    show (1 : Nat) = 0 + 1 from rfl,
    read_asset_table_cons archC4 84352 0 (by rw [length_archC4]),
    show (84352 : Nat) + 4 = 84356 from rfl,
    hz36, h40, hz44, hz48, hz52, hz56]
  rfl

theorem processShaders_keep (c : Nat) :
    processShaders c [(0, 5), (0, 0), (0, 0)] = ([(0, 5), (0, 0), (0, 0)], c) := rfl

theorem processTable_replicate :
    ∀ (n i c : Nat), processTable noSub i c (List.replicate n (0, 0)) =
      (List.replicate n (c, 0), c) := by
  intro n
  induction n with
  | zero => intro i c; rfl
  | succ m ih =>
    intro i c
    rw [List.replicate_succ]
    unfold processTable
    show ((c, 0) :: (processTable noSub (i + 1) (c + 0) (List.replicate m (0, 0))).1,
      (processTable noSub (i + 1) (c + 0) (List.replicate m (0, 0))).2) = _
    rw [show c + 0 = c from by omega, ih (i + 1) c]
    rfl

/-- C4 (counterexample): repacking an archive whose shader record 0 reads
`(offset 0, size 5)` succeeds and leaves that record at offset 0, which is
smaller than `metadataSize` (84392 for the Pepper Grinder configuration):
not every record of every table satisfies `offset ≥ metadata_size` after a
repack. -/
theorem C4_counterexample :
    (repack_assets pepperConfig archC4 noSub noSub).map
        (fun R => R.shaderTable.getD 0 (0, 0)) = .ok (0, 5) ∧
    (0 : Nat) < metadataSize pepperConfig := by
  constructor
  · have himg : read_asset_table archC4 0 10260 = List.replicate 10260 (0, 0) :=
      read_asset_table_zeros archC4 10260 0 (by rw [length_archC4]; omega)
        (fun j hj => by
          rw [Nat.zero_add]
          exact byteAt_archC4_zero (by omega))
    have hsnd : read_asset_table archC4 82048 267 = List.replicate 267 (0, 0) :=
      read_asset_table_zeros archC4 267 82048 (by rw [length_archC4]; omega)
        (fun j hj => byteAt_archC4_zero (by omega))
    have hfnt : read_asset_table archC4 84184 19 = List.replicate 19 (0, 0) :=
      read_asset_table_zeros archC4 19 84184 (by rw [length_archC4]; omega)
        (fun j hj => byteAt_archC4_zero (by omega))
    unfold repack_assets
    dsimp only [pepperConfig]
    rw [himg, hsnd, hfnt, read_shaders_archC4]
    rw [if_pos ⟨by rw [List.length_replicate], by rw [List.length_replicate],
      by rw [List.length_replicate], rfl⟩]
    simp only [processTable_replicate, processShaders_keep]
    rfl
  · decide

end PepperGrinder
